import Mathlib

set_option allowUnsafeReducibility true
attribute [semireducible] Rat.add Rat.mul Rat.sub Rat.div Rat.neg Rat.normalize Rat.blt Rat.inv Rat.floor Rat.ceil

/-!
Verification development for the magnetizing floor-plan generator
(TypeScript repository: discrete grid solver + continuous evolutionary
refiner).  The program is shallowly embedded over exact rationals: the
JavaScript `number` arithmetic of the source is modelled by `ℚ`, the
ambient `Math.random()` stream by an explicit function `ℕ → ℚ` together
with a cursor position threaded through every consuming operation, and
the host intrinsics `Math.sqrt` / `Math.pow` by function parameters
carried in a `Host` record (they are consulted only where the source
consults them; theorems either quantify over them or pin the one value
the concrete run reads).  `Infinity` — used by the source only as the
initial fitness of a gene — is modelled by `⊤ : WithTop ℚ`.
-/

namespace Magnetizing

/-- JavaScript `Math.floor` on a rational, landing in `ℤ`. -/
def jsFloor (q : ℚ) : ℤ := ⌊q⌋

/-- JavaScript `Math.floor` used as an array index (the source only
floors non-negative products `u * length`). -/
def jsFloorNat (q : ℚ) : ℕ := (⌊q⌋).toNat

/-- JavaScript `Math.ceil` used as a grid dimension (non-negative in
every reachable call). -/
def jsCeilNat (q : ℚ) : ℕ := (⌈q⌉).toNat

/-- Host intrinsics of the JavaScript engine that have no exact rational
meaning.  `sqrtFn` models `Math.sqrt`, `powFn` models `Math.pow`.  Every
theorem below either quantifies over them or fixes the single value the
evaluated run actually reads. -/
structure Host where
  u : ℕ → ℚ
  sqrtFn : ℚ → ℚ
  powFn : ℚ → ℚ → ℚ

/-- One draw of the ambient `Math.random()` stream: the value at the
cursor, and the advanced cursor. -/
def Host.draw (h : Host) (pos : ℕ) : ℚ × ℕ := (h.u pos, pos + 1)

/-- A 2-D point with rational coordinates (`Vec2` of the source). -/
structure Vec2Q where
  x : ℚ
  y : ℚ
deriving DecidableEq, Repr

/-- An axis-aligned bounding box (`AABB` of the source's Polygon module). -/
structure AABBQ where
  minX : ℚ
  minY : ℚ
  maxX : ℚ
  maxY : ℚ
deriving DecidableEq, Repr

/-- Modelled from the spec: `Polygon.createRectangle(x,y,w,h)` of the
missing `core/geometry/Polygon.ts` returns the 4-vertex axis-aligned
rectangle polygon. -/
def Polygon.createRectangle (x y w h : ℚ) : List Vec2Q :=
  [⟨x, y⟩, ⟨x + w, y⟩, ⟨x + w, y + h⟩, ⟨x, y + h⟩]

/-- Modelled from the spec: `Polygon.calculateAABB` sweeps the vertices
(`from_polygon sweeps vertices`).  The empty polygon never reaches this
function in any verified configuration; it is given the degenerate box
at the origin. -/
def Polygon.calculateAABB (poly : List Vec2Q) : AABBQ :=
  let h := poly.headD ⟨0, 0⟩
  poly.foldl
    (fun acc p =>
      ⟨min acc.minX p.x, min acc.minY p.y, max acc.maxX p.x, max acc.maxY p.y⟩)
    ⟨h.x, h.y, h.x, h.y⟩

/-- Modelled from the spec: `intersects(a,b) ≡ not (a.max_x<b.min_x ∨
a.min_x>b.max_x ∨ a.max_y<b.min_y ∨ a.min_y>b.max_y)`. -/
def Polygon.aabbIntersects (a b : AABBQ) : Bool :=
  !(decide (a.maxX < b.minX) || decide (a.minX > b.maxX) ||
    decide (a.maxY < b.minY) || decide (a.minY > b.maxY))

/-- Modelled from the spec: `Polygon.intersectionArea` of the missing
`Polygon.ts`.  The spec states that for rectangles — the only polygons
the solvers intersect in hot paths, and the only shapes appearing in the
configurations verified below (boundaries are rectangles there) — the
intersection area reduces to AABB overlap width × height. -/
def Polygon.intersectionArea (p q : List Vec2Q) : ℚ :=
  let a := Polygon.calculateAABB p
  let b := Polygon.calculateAABB q
  let ox := min a.maxX b.maxX - max a.minX b.minX
  let oy := min a.maxY b.maxY - max a.minY b.minY
  if 0 < ox ∧ 0 < oy then ox * oy else 0

/-- Ray-casting point-in-polygon test with the half-open edge rule
`(yi > p.y) != (yj > p.y)`; translated from `GridBuffer.isPointInPolygon`
in the source (the spec states `Polygon.pointInPolygon` uses the same
algorithm).  The division is guarded by the crossing test, which forces
`yj ≠ yi`. -/
def Polygon.pointInPolygon (p : Vec2Q) (poly : List Vec2Q) : Bool :=
  let n := poly.length
  (List.range n).foldl
    (fun inside i =>
      let vi := poly.getD i ⟨0, 0⟩
      let vj := poly.getD ((i + n - 1) % n) ⟨0, 0⟩
      let crossing :=
        (decide (vi.y > p.y) != decide (vj.y > p.y)) &&
          decide (p.x < (vj.x - vi.x) * (p.y - vi.y) / (vj.y - vi.y) + vi.x)
      if crossing then !inside else inside)
    false

/-- Modelled from the spec: `closest_point_on_polygon_boundary` iterates
each edge segment, projects the point onto it clamped to `[0,1]`, and
returns the point with minimum squared distance (first such point on
ties). -/
def Polygon.closestPointOnPolygon (p : Vec2Q) (poly : List Vec2Q) : Vec2Q :=
  let n := poly.length
  let best :=
    (List.range n).foldl
      (fun acc i =>
        let a := poly.getD i ⟨0, 0⟩
        let b := poly.getD ((i + 1) % n) ⟨0, 0⟩
        let ex := b.x - a.x
        let ey := b.y - a.y
        let len2 := ex * ex + ey * ey
        let t0 := if len2 = 0 then 0 else ((p.x - a.x) * ex + (p.y - a.y) * ey) / len2
        let t := max 0 (min 1 t0)
        let cx := a.x + t * ex
        let cy := a.y + t * ey
        let d2 := (p.x - cx) * (p.x - cx) + (p.y - cy) * (p.y - cy)
        match acc with
        | none => some (d2, (⟨cx, cy⟩ : Vec2Q))
        | some (bd, bp) => if d2 < bd then some (d2, ⟨cx, cy⟩) else some (bd, bp))
      none
  match best with
  | some (_, bp) => bp
  | none => p

/-- `RoomStateES` of the source: a continuous room rectangle plus the
four pressure counters.  `targetRatioQ` embeds the source field
`targetRatio`. -/
structure RoomES where
  id : String
  x : ℚ
  y : ℚ
  width : ℚ
  height : ℚ
  targetArea : ℚ
  targetRatioQ : ℚ
  pressureX : ℚ
  pressureY : ℚ
  accumulatedPressureX : ℚ
  accumulatedPressureY : ℚ
deriving DecidableEq, Repr

/-- Placeholder room used to embed JavaScript out-of-range element reads
(which no in-contract execution performs). -/
def dfltRoom : RoomES := ⟨"", 0, 0, 0, 0, 0, 1, 0, 0, 0, 0⟩

/-- An adjacency requirement `{a, b, weight?}` of the source. -/
structure Adjacency where
  a : String
  b : String
  weight : Option ℚ
deriving DecidableEq, Repr

/-- The `adj.weight ?? 1.0` read used throughout the source. -/
def Adjacency.w (adj : Adjacency) : ℚ := adj.weight.getD 1

/-- `SpringConfig` of the source (the fields the continuous solver
reads; optional fields keep their `??` defaults at the read sites). -/
structure SpringConfig where
  populationSize : ℕ
  mutationRate : ℚ
  mutationStrength : ℚ
  crossoverRate : ℚ
  selectionPressure : ℚ
  fitnessBalance : ℚ
  aspectRatioMutationRate : ℚ
  useSwapMutation : Bool := false
  swapMutationRate : Option ℚ := none
  usePartnerBias : Bool := false
  partnerBiasRate : Option ℚ := none
  useAggressiveInflation : Bool := false
  inflationRate : Option ℚ := none
  inflationThreshold : Option ℚ := none
  warmUpIterations : Option ℕ := none
  useFreshBlood : Bool := false
  freshBloodInterval : Option ℕ := none
  freshBloodWarmUp : Option ℕ := none
  useQuadraticPenalty : Bool := false
  useNonLinearOverlapPenalty : Bool := false
  overlapPenaltyExponent : Option ℚ := none
deriving DecidableEq, Repr

/-- A gene: a complete room configuration plus its fitness scalars.
`fitness` starts at `Infinity` (`⊤`). -/
structure Gene where
  rooms : List RoomES
  fitness : WithTop ℚ
  fitnessG : ℚ
  fitnessT : ℚ
deriving DecidableEq, Repr

/-- The `Gene` constructor: deep-copies the rooms (value semantics make
the copy the identity here; the aliasing content of the copy is verified
separately in the store-passing model below) and starts `fitness` at
`Infinity`. -/
def Gene.mkGene (rooms : List RoomES) : Gene := ⟨rooms, ⊤, 0, 0⟩

/-- Placeholder gene for out-of-range element reads. -/
def dfltGene : Gene := Gene.mkGene []

/-- `Gene.clone`: constructs a gene from the same rooms and copies every
fitness field — in value semantics, the identity. -/
def Gene.clone (g : Gene) : Gene := g

/-- The effective target ratio of a room: `(globalTargetRatio &&
!isCorridor) ? globalTargetRatio : room.targetRatio` — note the
JavaScript truthiness test, under which a global ratio of `0` falls back
to the room's own ratio. -/
def effTargetRat (gtr : Option ℚ) (room : RoomES) : ℚ :=
  match gtr with
  | some g => if g ≠ 0 ∧ ¬ room.id.startsWith "corridor-" then g else room.targetRatioQ
  | none => room.targetRatioQ

/-- `Gene.trySquishHorizontal`: balanced horizontal overlap resolution,
returning the two updated rooms.  `SQUISH_FACTOR = 0.5`. -/
def trySquishHorizontal (gtr : Option ℚ) (roomA roomB : RoomES) (overlap : ℚ)
    (accP : Bool) : RoomES × RoomES :=
  let roomA := if accP then { roomA with pressureX := roomA.pressureX + overlap } else roomA
  let roomB := if accP then { roomB with pressureX := roomB.pressureX + overlap } else roomB
  let squishAmount := overlap * (1/2) * (1/2) + 1/10
  let newWidthA := roomA.width - squishAmount
  let newWidthB := roomB.width - squishAmount
  let newHeightA := roomA.targetArea / newWidthA
  let newHeightB := roomB.targetArea / newWidthB
  let ratA := newWidthA / newHeightA
  let ratB := newWidthB / newHeightB
  let tA := effTargetRat gtr roomA
  let tB := effTargetRat gtr roomB
  let validA := decide (1 / tA ≤ ratA) && decide (ratA ≤ tA)
  let validB := decide (1 / tB ≤ ratB) && decide (ratB ≤ tB)
  let translateAmount := overlap * (1 - 1/2) * (1/2)
  if validA && validB then
    if roomA.x < roomB.x then
      ({ roomA with x := roomA.x - translateAmount - squishAmount * (1/2),
                    width := newWidthA, height := newHeightA },
       { roomB with x := roomB.x + translateAmount + squishAmount * (1/2),
                    width := newWidthB, height := newHeightB })
    else
      ({ roomA with x := roomA.x + translateAmount + squishAmount * (1/2),
                    width := newWidthA, height := newHeightA },
       { roomB with x := roomB.x - translateAmount - squishAmount * (1/2),
                    width := newWidthB, height := newHeightB })
  else
    let fullMove := overlap * (1/2) + 1/10
    if roomA.x < roomB.x then
      ({ roomA with x := roomA.x - fullMove }, { roomB with x := roomB.x + fullMove })
    else
      ({ roomA with x := roomA.x + fullMove }, { roomB with x := roomB.x - fullMove })

/-- `Gene.trySquishVertical`: the vertical mirror of the horizontal
path. -/
def trySquishVertical (gtr : Option ℚ) (roomA roomB : RoomES) (overlap : ℚ)
    (accP : Bool) : RoomES × RoomES :=
  let roomA := if accP then { roomA with pressureY := roomA.pressureY + overlap } else roomA
  let roomB := if accP then { roomB with pressureY := roomB.pressureY + overlap } else roomB
  let squishAmount := overlap * (1/2) * (1/2) + 1/10
  let newHeightA := roomA.height - squishAmount
  let newHeightB := roomB.height - squishAmount
  let newWidthA := roomA.targetArea / newHeightA
  let newWidthB := roomB.targetArea / newHeightB
  let ratA := newWidthA / newHeightA
  let ratB := newWidthB / newHeightB
  let tA := effTargetRat gtr roomA
  let tB := effTargetRat gtr roomB
  let validA := decide (1 / tA ≤ ratA) && decide (ratA ≤ tA)
  let validB := decide (1 / tB ≤ ratB) && decide (ratB ≤ tB)
  let translateAmount := overlap * (1 - 1/2) * (1/2)
  if validA && validB then
    if roomA.y < roomB.y then
      ({ roomA with y := roomA.y - translateAmount - squishAmount * (1/2),
                    width := newWidthA, height := newHeightA },
       { roomB with y := roomB.y + translateAmount + squishAmount * (1/2),
                    width := newWidthB, height := newHeightB })
    else
      ({ roomA with y := roomA.y + translateAmount + squishAmount * (1/2),
                    width := newWidthA, height := newHeightA },
       { roomB with y := roomB.y - translateAmount - squishAmount * (1/2),
                    width := newWidthB, height := newHeightB })
  else
    let fullMove := overlap * (1/2) + 1/10
    if roomA.y < roomB.y then
      ({ roomA with y := roomA.y - fullMove }, { roomB with y := roomB.y + fullMove })
    else
      ({ roomA with y := roomA.y + fullMove }, { roomB with y := roomB.y - fullMove })

/-- `Gene.applyAdjacencyForces`: for each adjacency with both endpoints
present, nudge the two room centers toward each other (the finds resolve
the first room with the matching id, and the two field updates are
applied sequentially, which also handles the degenerate aliased case
`a = b`). -/
def applyAdjacencyForces (adjs : List Adjacency) (strength : ℚ)
    (rooms : List RoomES) : List RoomES :=
  adjs.foldl
    (fun rooms adj =>
      match rooms.findIdx? (fun r => r.id = adj.a), rooms.findIdx? (fun r => r.id = adj.b) with
      | some ia, some ib =>
        let roomA := rooms.getD ia dfltRoom
        let roomB := rooms.getD ib dfltRoom
        let dx := (roomB.x + roomB.width / 2) - (roomA.x + roomA.width / 2)
        let dy := (roomB.y + roomB.height / 2) - (roomA.y + roomA.height / 2)
        let w := adj.w * strength
        let rooms := rooms.set ia
          { roomA with x := roomA.x + dx * w * (1/10), y := roomA.y + dy * w * (1/10) }
        let roomB2 := rooms.getD ib dfltRoom
        rooms.set ib
          { roomB2 with x := roomB2.x - dx * w * (1/10), y := roomB2.y - dy * w * (1/10) }
      | _, _ => rooms)
    rooms

/-- `Gene.applyAggressiveInflation`: grow under-sized rooms by
`inflationRate` (defaults 1.02 / 1.05). -/
def applyAggressiveInflation (config : SpringConfig) (rooms : List RoomES) : List RoomES :=
  let rate := config.inflationRate.getD (51/50)
  let threshold := config.inflationThreshold.getD (21/20)
  rooms.map (fun room =>
    if room.width * room.height < room.targetArea * threshold then
      { room with width := room.width * rate, height := room.height * rate }
    else room)

/-- The ordered `(i, j)` pairs with `i < j`, in the source's loop order
(outer `i` ascending, inner `j` ascending). -/
def pairIndices (n : ℕ) : List (ℕ × ℕ) :=
  (List.range n).flatMap (fun i => ((List.range n).filter (fun j => i < j)).map (fun j => (i, j)))

/-- One pair step of the collision loop: AABB early exit, precise
intersection check against the `0.01` threshold, then a squish along the
smaller-overlap axis, writing both rooms back. -/
def resolvePair (gtr : Option ℚ) (rooms : List RoomES) (ij : ℕ × ℕ) : List RoomES :=
  let roomA := rooms.getD ij.1 dfltRoom
  let roomB := rooms.getD ij.2 dfltRoom
  let polyA := Polygon.createRectangle roomA.x roomA.y roomA.width roomA.height
  let polyB := Polygon.createRectangle roomB.x roomB.y roomB.width roomB.height
  let aabbA := Polygon.calculateAABB polyA
  let aabbB := Polygon.calculateAABB polyB
  if !(Polygon.aabbIntersects aabbA aabbB) then rooms
  else
    let overlapArea := Polygon.intersectionArea polyA polyB
    if 1/100 < overlapArea then
      let overlapX := min aabbA.maxX aabbB.maxX - max aabbA.minX aabbB.minX
      let overlapY := min aabbA.maxY aabbB.maxY - max aabbA.minY aabbB.minY
      let rAB :=
        if overlapX < overlapY then trySquishHorizontal gtr roomA roomB overlapX true
        else trySquishVertical gtr roomA roomB overlapY true
      (rooms.set ij.1 rAB.1).set ij.2 rAB.2
    else rooms

/-- One boundary-constraint check-and-push step for a single room:
returns the pushed room, or `none` when all four corners are already
inside (the loop's `break`). -/
def constrainStep (boundary : List Vec2Q) (room : RoomES) : Option RoomES :=
  let corners : List Vec2Q :=
    [⟨room.x, room.y⟩, ⟨room.x + room.width, room.y⟩,
     ⟨room.x + room.width, room.y + room.height⟩, ⟨room.x, room.y + room.height⟩]
  let worst :=
    corners.foldl
      (fun acc corner =>
        if Polygon.pointInPolygon corner boundary then acc
        else
          let c := Polygon.closestPointOnPolygon corner boundary
          let d2 := (corner.x - c.x) * (corner.x - c.x) + (corner.y - c.y) * (corner.y - c.y)
          match acc with
          | none => some (d2, corner)
          | some (bd, bc) => if bd < d2 then some (d2, corner) else some (bd, bc))
      none
  match worst with
  | none => none
  | some (_, corner) =>
    let c := Polygon.closestPointOnPolygon corner boundary
    let pushX := c.x - corner.x
    let pushY := c.y - corner.y
    some { room with
      x := room.x + pushX * (11/10), y := room.y + pushY * (11/10),
      accumulatedPressureX := room.accumulatedPressureX + |pushX| * 10,
      accumulatedPressureY := room.accumulatedPressureY + |pushY| * 10 }

/-- `Gene.constrainToBoundary` for one room: up to `MAX_ITERATIONS = 10`
check-and-push rounds. -/
def constrainLoop (boundary : List Vec2Q) : ℕ → RoomES → RoomES
  | 0, room => room
  | fuel + 1, room =>
    match constrainStep boundary room with
    | none => room
    | some pushed => constrainLoop boundary fuel pushed

/-- `Gene.applySquishCollisions`: one physics tick — zero the pressures,
optional aggressive inflation, optional adjacency attraction (strength
0.15), one pass of pairwise overlap resolution in `(i,j), i<j` order
(the source's `MAX_ITERATIONS` is 1), save the pressures, then constrain
every room to the boundary.  The fitness fields are untouched. -/
def Gene.applySquishCollisions (boundary : List Vec2Q) (config : SpringConfig)
    (gtr : Option ℚ) (adjs : Option (List Adjacency)) (g : Gene) : Gene :=
  let rooms := g.rooms.map (fun r => { r with pressureX := 0, pressureY := 0 })
  let rooms := if config.useAggressiveInflation then applyAggressiveInflation config rooms else rooms
  let rooms :=
    match adjs with
    | some l => applyAdjacencyForces l (3/20) rooms
    | none => rooms
  let rooms := (pairIndices rooms.length).foldl (resolvePair gtr) rooms
  let rooms := rooms.map (fun r =>
    { r with accumulatedPressureX := r.pressureX, accumulatedPressureY := r.pressureY })
  let rooms := rooms.map (constrainLoop boundary 10)
  { g with rooms := rooms }

/-- `Gene.calculateGeometricFitness`: pairwise overlap penalty (with the
optional non-linear variant) plus 100 × the area outside the boundary. -/
def calcGeometricFitness (host : Host) (config : SpringConfig)
    (boundary : List Vec2Q) (rooms : List RoomES) : ℚ :=
  let totalOverlap :=
    (pairIndices rooms.length).foldl
      (fun acc ij =>
        let roomA := rooms.getD ij.1 dfltRoom
        let roomB := rooms.getD ij.2 dfltRoom
        let polyA := Polygon.createRectangle roomA.x roomA.y roomA.width roomA.height
        let polyB := Polygon.createRectangle roomB.x roomB.y roomB.width roomB.height
        let overlapArea := Polygon.intersectionArea polyA polyB
        if 1/100 < overlapArea then
          let penalty :=
            if config.useNonLinearOverlapPenalty then
              let expo := config.overlapPenaltyExponent.getD (3/2)
              let aabbA := Polygon.calculateAABB polyA
              let aabbB := Polygon.calculateAABB polyB
              let overlapX := min aabbA.maxX aabbB.maxX - max aabbA.minX aabbB.minX
              let overlapY := min aabbA.maxY aabbB.maxY - max aabbA.minY aabbB.minY
              let aabbOverlapArea := overlapX * overlapY
              let compactness := if 1/10 < aabbOverlapArea then overlapArea / aabbOverlapArea else 1
              host.powFn overlapArea expo * (1 + compactness)
            else overlapArea
          acc + penalty
        else acc)
      0
  let totalOutOfBounds :=
    rooms.foldl
      (fun acc room =>
        let roomPoly := Polygon.createRectangle room.x room.y room.width room.height
        let roomArea := room.width * room.height
        let insideArea := Polygon.intersectionArea boundary roomPoly
        acc + max 0 (roomArea - insideArea))
      0
  totalOverlap + totalOutOfBounds * 100

/-- `Gene.calculateTopologicalFitness`: weighted axis-gap penalties over
the adjacency list (quadratic, or square-rooted through the host). -/
def calcTopologicalFitness (host : Host) (config : SpringConfig)
    (adjs : List Adjacency) (rooms : List RoomES) : ℚ :=
  adjs.foldl
    (fun acc adj =>
      match rooms.find? (fun r => r.id = adj.a), rooms.find? (fun r => r.id = adj.b) with
      | some roomA, some roomB =>
        let cdx := |(roomA.x + roomA.width / 2) - (roomB.x + roomB.width / 2)|
        let cdy := |(roomA.y + roomA.height / 2) - (roomB.y + roomB.height / 2)|
        let gapX := max 0 (cdx - (roomA.width + roomB.width) / 2)
        let gapY := max 0 (cdy - (roomA.height + roomB.height) / 2)
        let distanceSq := gapX * gapX + gapY * gapY
        let penalty := if config.useQuadraticPenalty then distanceSq else host.sqrtFn distanceSq
        acc + penalty * adj.w
      | _, _ => acc)
    0

/-- `Gene.calculateFitness`: stores the geometric and topological
components and the balanced total (lower is better). -/
def Gene.calculateFitness (host : Host) (boundary : List Vec2Q) (adjs : List Adjacency)
    (balance : ℚ) (config : SpringConfig) (g : Gene) : Gene :=
  let fg := calcGeometricFitness host config boundary g.rooms
  let ft := calcTopologicalFitness host config adjs g.rooms
  { g with fitnessG := fg, fitnessT := ft,
           fitness := ((fg * balance + ft * (1 - balance) : ℚ) : WithTop ℚ) }

/-- Euclidean center distance of two rooms (`Gene.calculateDistance`). -/
def roomDistance (host : Host) (roomA roomB : RoomES) : ℚ :=
  let dx := (roomB.x + roomB.width / 2) - (roomA.x + roomA.width / 2)
  let dy := (roomB.y + roomB.height / 2) - (roomA.y + roomA.height / 2)
  host.sqrtFn (dx * dx + dy * dy)

/-- Center distance after hypothetically swapping the two rooms'
positions (`Gene.calculateDistanceSwapped`). -/
def roomDistanceSwapped (host : Host) (roomA roomB : RoomES) : ℚ :=
  let dx := (roomA.x + roomB.width / 2) - (roomB.x + roomA.width / 2)
  let dy := (roomA.y + roomB.height / 2) - (roomB.y + roomA.height / 2)
  host.sqrtFn (dx * dx + dy * dy)

/-- A swap candidate produced by `Gene.findBestSwapCandidates`. -/
structure SwapCandidate where
  roomAId : String
  roomBId : String
  improvementScore : ℚ
deriving DecidableEq, Repr

/-- `Gene.findBestSwapCandidates`: adjacency pairs whose weighted
center-distance improvement under a position swap is positive, sorted
descending by improvement (stable, as the JavaScript sort). -/
def findBestSwapCandidates (host : Host) (adjs : List Adjacency)
    (rooms : List RoomES) : List SwapCandidate :=
  let candidates :=
    adjs.foldl
      (fun acc adj =>
        match rooms.find? (fun r => r.id = adj.a), rooms.find? (fun r => r.id = adj.b) with
        | some roomA, some roomB =>
          let improvement := roomDistance host roomA roomB - roomDistanceSwapped host roomA roomB
          if 0 < improvement then
            acc ++ [⟨adj.a, adj.b, improvement * adj.w⟩]
          else acc
        | _, _ => acc)
      []
  List.insertionSort (fun c d => d.improvementScore ≤ c.improvementScore) candidates

/-- Swap the `x`/`y` positions of the rooms at two indices. -/
def swapRoomPositions (rooms : List RoomES) (ia ib : ℕ) : List RoomES :=
  let roomA := rooms.getD ia dfltRoom
  let roomB := rooms.getD ib dfltRoom
  let rooms := rooms.set ia { roomA with x := roomB.x, y := roomB.y }
  rooms.set ib { (rooms.getD ib dfltRoom) with x := roomA.x, y := roomA.y }

/-- The swap-mutation phase at the top of `Gene.mutate`.  Note the
JavaScript short-circuit: no random draw happens unless the feature flag
is on. -/
def mutateSwapPhase (host : Host) (config : SpringConfig) (adjs : List Adjacency)
    (rooms : List RoomES) (pos : ℕ) : List RoomES × ℕ :=
  if config.useSwapMutation then
    let d1 := host.draw pos
    if d1.1 < config.swapMutationRate.getD (1/10) then
      let candidates := findBestSwapCandidates host adjs rooms
      if candidates.length ≠ 0 then
        let d2 := host.draw d1.2
        let cand := candidates.getD (jsFloorNat (d2.1 * (min 3 candidates.length : ℕ))) ⟨"", "", 0⟩
        match rooms.findIdx? (fun r => r.id = cand.roomAId),
              rooms.findIdx? (fun r => r.id = cand.roomBId) with
        | some ia, some ib => (swapRoomPositions rooms ia ib, d2.2)
        | _, _ => (rooms, d2.2)
      else
        let d2 := host.draw d1.2
        let d3 := host.draw d2.2
        let ia := jsFloorNat (d2.1 * rooms.length)
        let ib := jsFloorNat (d3.1 * rooms.length)
        if ia ≠ ib then (swapRoomPositions rooms ia ib, d3.2) else (rooms, d3.2)
    else (rooms, d1.2)
  else (rooms, pos)

/-- The partner-bias step of `Gene.mutate` for the room at index `i`:
returns the updated room list, whether a mutation was applied, and the
advanced cursor.  `Gene.findConnectedNeighbor` draws only when the
neighbor list is non-empty. -/
def partnerBiasStep (host : Host) (config : SpringConfig) (adjs : List Adjacency)
    (rooms : List RoomES) (i : ℕ) (pos : ℕ) : List RoomES × Bool × ℕ :=
  if config.usePartnerBias then
    let d1 := host.draw pos
    if d1.1 < config.partnerBiasRate.getD (2/5) then
      let room := rooms.getD i dfltRoom
      let neighbors := adjs.foldl
        (fun acc adj =>
          if adj.a = room.id then acc ++ [adj.b]
          else if adj.b = room.id then acc ++ [adj.a] else acc) ([] : List String)
      if neighbors.length = 0 then (rooms, false, d1.2)
      else
        let d2 := host.draw d1.2
        let nid := neighbors.getD (jsFloorNat (d2.1 * neighbors.length)) ""
        match rooms.find? (fun r => r.id = nid) with
        | some nb =>
          (rooms.set i { room with x := room.x + (nb.x - room.x) * (7/10),
                                   y := room.y + (nb.y - room.y) * (7/10) }, true, d2.2)
        | none => (rooms, false, d2.2)
    else (rooms, false, d1.2)
  else (rooms, false, pos)

/-- The per-room body of `Gene.mutate`: partner bias, random
translation, aspect-ratio mutation with pressure bias
(`PRESSURE_SENSITIVITY = 0.3`), and the final unconditional clamp of
width and height to at least 1. -/
def mutateRoomStep (host : Host) (config : SpringConfig) (adjs : List Adjacency)
    (gtr : Option ℚ) (mRate mStrength aRate : ℚ)
    (rooms : List RoomES) (i : ℕ) (pos : ℕ) : List RoomES × ℕ :=
  let pb := partnerBiasStep host config adjs rooms i pos
  let rooms := pb.1
  let applied := pb.2.1
  let pos := pb.2.2
  let translated :=
    if applied then (rooms, pos)
    else
      let d1 := host.draw pos
      if d1.1 < mRate then
        let d2 := host.draw d1.2
        let d3 := host.draw d2.2
        let room := rooms.getD i dfltRoom
        (rooms.set i { room with x := room.x + (d2.1 - 1/2) * mStrength,
                                 y := room.y + (d3.1 - 1/2) * mStrength }, d3.2)
      else (rooms, d1.2)
  let rooms := translated.1
  let pos := translated.2
  let d4 := host.draw pos
  let aspected :=
    if d4.1 < aRate then
      let room := rooms.getD i dfltRoom
      let tgt := effTargetRat gtr room
      let minRat := 1 / tgt
      let maxRat := tgt
      let pressureDelta := room.accumulatedPressureX - room.accumulatedPressureY
      let totalPressure := room.accumulatedPressureX + room.accumulatedPressureY
      let bias : ℚ :=
        if 1/10 < totalPressure then
          if 1/2 < pressureDelta then -(3/10)
          else if pressureDelta < -(1/2) then 3/10 else 0
        else 0
      let currentRat := room.width / room.height
      let d5 := host.draw d4.2
      let newRat0 := currentRat * (1 + (d5.1 - 1/2) * (1/5) + bias)
      let newRat := max minRat (min maxRat newRat0)
      let w := host.sqrtFn (room.targetArea * newRat)
      (rooms.set i { room with width := w, height := room.targetArea / w }, d5.2)
    else (rooms, d4.2)
  let rooms := aspected.1
  let pos := aspected.2
  let room := rooms.getD i dfltRoom
  (rooms.set i { room with width := max 1 room.width, height := max 1 room.height }, pos)

/-- The per-room loop of `Gene.mutate` over a list of indices. -/
def mutateRoomsLoop (host : Host) (config : SpringConfig) (adjs : List Adjacency)
    (gtr : Option ℚ) (mRate mStrength aRate : ℚ) :
    List ℕ → List RoomES → ℕ → List RoomES × ℕ
  | [], rooms, pos => (rooms, pos)
  | i :: rest, rooms, pos =>
    let step := mutateRoomStep host config adjs gtr mRate mStrength aRate rooms i pos
    mutateRoomsLoop host config adjs gtr mRate mStrength aRate rest step.1 step.2

/-- `Gene.mutate`: optional swap phase, then the per-room loop.  The
aspect mutation rate defaults to the mutation rate when the argument is
absent (`aspectRatioMutationRate ?? mutationRate`). -/
def Gene.mutate (host : Host) (config : SpringConfig) (adjs : List Adjacency)
    (gtr : Option ℚ) (mRate mStrength : ℚ) (aRate : Option ℚ)
    (g : Gene) (pos : ℕ) : Gene × ℕ :=
  let aspectRate := aRate.getD mRate
  let sw := mutateSwapPhase host config adjs g.rooms pos
  let lp := mutateRoomsLoop host config adjs gtr mRate mStrength aspectRate
    (List.range sw.1.length) sw.1 sw.2
  ({ g with rooms := lp.1 }, lp.2)

/-- The per-index body of `Gene.crossover`: four uniform draws pick
`x`, `y`, `width`, `height` from either parent; areas and ratios come
from the left parent; pressures are zeroed / averaged. -/
def crossoverRoom (host : Host) (pA pB : RoomES) (pos : ℕ) : RoomES × ℕ :=
  let dx := host.draw pos
  let dy := host.draw dx.2
  let dw := host.draw dy.2
  let dh := host.draw dw.2
  (⟨pA.id,
    (if dx.1 < 1/2 then pA.x else pB.x),
    (if dy.1 < 1/2 then pA.y else pB.y),
    (if dw.1 < 1/2 then pA.width else pB.width),
    (if dh.1 < 1/2 then pA.height else pB.height),
    pA.targetArea, pA.targetRatioQ, 0, 0,
    (pA.accumulatedPressureX + pB.accumulatedPressureX) / 2,
    (pA.accumulatedPressureY + pB.accumulatedPressureY) / 2⟩, dh.2)

/-- The index loop of `Gene.crossover`, building the child rooms in
order. -/
def crossoverRoomsLoop (host : Host) (roomsA roomsB : List RoomES) :
    List ℕ → List RoomES → ℕ → List RoomES × ℕ
  | [], acc, pos => (acc, pos)
  | i :: rest, acc, pos =>
    let c := crossoverRoom host (roomsA.getD i dfltRoom) (roomsB.getD i dfltRoom) pos
    crossoverRoomsLoop host roomsA roomsB rest (acc ++ [c.1]) c.2

/-- `Gene.crossover`: uniform crossover over the left parent's index
range; the child is a freshly constructed gene (fitness `Infinity`). -/
def Gene.crossover (host : Host) (gA gB : Gene) (pos : ℕ) : Gene × ℕ :=
  let lp := crossoverRoomsLoop host gA.rooms gB.rooms (List.range gA.rooms.length) [] pos
  (Gene.mkGene lp.1, lp.2)

/-- The shared per-collection environment: inputs stored by the
`GeneCollection` constructor plus the host intrinsics. -/
structure GCEnv where
  host : Host
  boundary : List Vec2Q
  adjacencies : List Adjacency
  config : SpringConfig
  globalRatioQ : Option ℚ

/-- The comparator of every population sort in the source,
`(a, b) => a.fitness - b.fitness`, as a boolean order on genes
(`⊤` models `Infinity`: a finite fitness sorts before `Infinity`, and
the `Infinity - Infinity = NaN` comparison acts as a tie, exactly the
order of `WithTop ℚ`). -/
def geneLE (a b : Gene) : Bool :=
  match a.fitness, b.fitness with
  | Option.some x, Option.some y => decide (x ≤ y)
  | _, Option.none => true
  | Option.none, Option.some _ => false

/-- The comparator as a decidable relation, for the population sorts.
JavaScript `Array.prototype.sort` is a stable sort; for a total
transitive comparator every stable sort produces the same list, so the
structural stable insertion sort below computes exactly the source's
sort results. -/
def geneRel (a b : Gene) : Prop := geneLE a b = true

instance geneRelDecidable : DecidableRel geneRel :=
  fun a b => instDecidableEqBool (geneLE a b) true

/-- The population sort `(a, b) => a.fitness - b.fitness` (stable,
ascending by fitness). -/
def sortGenes (l : List Gene) : List Gene := List.insertionSort geneRel l

/-- The population state of a `GeneCollection` (the ambient
`Math.random()` cursor lives outside, shared by the whole process). -/
structure GCState where
  genes : List Gene
  baseRooms : List RoomES
  currentGeneration : ℕ
deriving DecidableEq, Repr

/-- Warm-up helper: `n` physics ticks applied to one gene
(the `warmUpIterations` loops of the source). -/
def warmUpTicks (env : GCEnv) (cfg : SpringConfig) : ℕ → Gene → Gene
  | 0, g => g
  | n + 1, g =>
    warmUpTicks env cfg n
      (Gene.applySquishCollisions env.boundary cfg env.globalRatioQ (some env.adjacencies) g)

/-- Steps 1–3 of `GeneCollection.iterate`: one squish tick for every
gene, fitness evaluation for every gene, then the ascending
fitness sort. -/
def evalSortPhase (env : GCEnv) (genes : List Gene) : List Gene :=
  let gs := genes.map
    (Gene.applySquishCollisions env.boundary env.config env.globalRatioQ (some env.adjacencies))
  let gs := gs.map
    (Gene.calculateFitness env.host env.boundary env.adjacencies env.config.fitnessBalance env.config)
  sortGenes gs

/-- The crossover loop of step 4: `⌊populationSize · crossoverRate⌋`
children from parents drawn uniformly out of the top-half pool
(`parentPoolSize = max(2, ⌊len · 0.5⌋)`). -/
def crossoverLoop (env : GCEnv) (sorted : List Gene) :
    ℕ → List Gene → ℕ → List Gene × ℕ
  | 0, acc, pos => (acc, pos)
  | n + 1, acc, pos =>
    let poolSize := max 2 (jsFloorNat ((sorted.length : ℚ) * (1/2)))
    let dA := env.host.draw pos
    let dB := env.host.draw dA.2
    let pA := sorted.getD (jsFloorNat (dA.1 * poolSize)) dfltGene
    let pB := sorted.getD (jsFloorNat (dB.1 * poolSize)) dfltGene
    let c := Gene.crossover env.host pA pB dB.2
    crossoverLoop env sorted n (acc ++ [c.1]) c.2

/-- Step 5 of `GeneCollection.iterate`: mutate each child, then let it
settle with `warmUpIterations ?? 0` physics ticks. -/
def mutateOffspringLoop (env : GCEnv) :
    List Gene → List Gene → ℕ → List Gene × ℕ
  | [], acc, pos => (acc, pos)
  | child :: rest, acc, pos =>
    let m := Gene.mutate env.host env.config env.adjacencies env.globalRatioQ
      env.config.mutationRate env.config.mutationStrength
      (some env.config.aspectRatioMutationRate) child pos
    let warmed := warmUpTicks env env.config (env.config.warmUpIterations.getD 0) m.1
    mutateOffspringLoop env rest (acc ++ [warmed]) m.2

/-- Steps 4–5 of `GeneCollection.iterate` combined: produce the mutated,
warmed offspring list. -/
def offspringPhase (env : GCEnv) (sorted : List Gene) (pos : ℕ) : List Gene × ℕ :=
  let numOffspring := jsFloorNat ((env.config.populationSize : ℚ) * env.config.crossoverRate)
  let co := crossoverLoop env sorted numOffspring [] pos
  mutateOffspringLoop env co.1 [] co.2

/-- JavaScript `slice(0, end)` where `end` may be negative (negative
ends count from the end of the array, clamped at zero). -/
def jsSliceTo {α : Type} (l : List α) (endI : ℤ) : List α :=
  if 0 ≤ endI then l.take endI.toNat else l.take ((l.length : ℤ) + endI).toNat

/-- Step 7 of `GeneCollection.iterate`: cull the tail
`⌊length · selectionPressure⌋` entries of the combined population. -/
def cullStep (sp : ℚ) (combined : List Gene) : List Gene :=
  let numToCull := jsFloorNat ((combined.length : ℚ) * sp)
  jsSliceTo combined ((combined.length : ℤ) - numToCull)

/-- One round of the refill loop body: clone a random survivor, mutate
it, warm it up, append it. -/
def refillLoop (env : GCEnv) : ℕ → List Gene → ℕ → List Gene × ℕ
  | 0, genes, pos => (genes, pos)
  | n + 1, genes, pos =>
    let d := env.host.draw pos
    let picked := genes.getD (jsFloorNat (d.1 * genes.length)) dfltGene
    let m := Gene.mutate env.host env.config env.adjacencies env.globalRatioQ
      env.config.mutationRate env.config.mutationStrength
      (some env.config.aspectRatioMutationRate) picked.clone d.2
    let warmed := warmUpTicks env env.config (env.config.warmUpIterations.getD 0) m.1
    refillLoop env n (genes ++ [warmed]) m.2

/-- The refill loop after culling: while the population is below
`populationSize`, clone a random survivor, mutate it, warm it up and
append it — each round appends exactly one gene, so the loop runs
exactly `populationSize − length` rounds. -/
def refillPhase (env : GCEnv) (genes : List Gene) (pos : ℕ) : List Gene × ℕ :=
  refillLoop env (env.config.populationSize - genes.length) genes pos

/-- One fresh-blood gene: reconstructed from the base templates with
dimensions reset to `sqrt(targetArea · targetRatio) ×
targetArea / that` and zero accumulated pressure, incubated with
`freshBloodWarmUp || 100` mutate-plus-squish rounds under the incubation
config, then graduated with one squish and a fitness evaluation. -/
def freshGeneRun (env : GCEnv) (incubCfg : SpringConfig) (baseRooms : List RoomES)
    (steps : ℕ) (pos : ℕ) : Gene × ℕ :=
  let g0 := Gene.mkGene (baseRooms.map (fun r =>
    let w := env.host.sqrtFn (r.targetArea * r.targetRatioQ)
    { r with width := w, height := r.targetArea / w,
             accumulatedPressureX := 0, accumulatedPressureY := 0 }))
  let incubated :=
    Nat.rec (motive := fun _ => Gene × ℕ) (g0, pos)
      (fun _ ih =>
        let m := Gene.mutate env.host incubCfg env.adjacencies env.globalRatioQ
          (9/10) (env.config.mutationStrength * 3) (some 1) ih.1 ih.2
        (Gene.applySquishCollisions env.boundary incubCfg env.globalRatioQ
          (some env.adjacencies) m.1, m.2))
      steps
  let graduated := Gene.applySquishCollisions env.boundary env.config env.globalRatioQ
    (some env.adjacencies) incubated.1
  (Gene.calculateFitness env.host env.boundary env.adjacencies
    env.config.fitnessBalance env.config graduated, incubated.2)

/-- The fresh-blood injection loop: `n` fresh genes appended in order. -/
def freshBloodLoop (env : GCEnv) (incubCfg : SpringConfig) (baseRooms : List RoomES)
    (steps : ℕ) : ℕ → List Gene → ℕ → List Gene × ℕ
  | 0, acc, pos => (acc, pos)
  | n + 1, acc, pos =>
    let f := freshGeneRun env incubCfg baseRooms steps pos
    freshBloodLoop env incubCfg baseRooms steps n (acc ++ [f.1]) f.2

/-- The optional fresh-blood step at the end of `GeneCollection.iterate`:
every `freshBloodInterval ?? 20` generations (skipping generation 0),
re-sort, drop the worst `max(1, ⌊len/4⌋)` genes and replace them with
incubated fresh genes. -/
def freshBloodPhase (env : GCEnv) (baseRooms : List RoomES) (gen : ℕ)
    (genes : List Gene) (pos : ℕ) : List Gene × ℕ :=
  if env.config.useFreshBlood then
    let interval := env.config.freshBloodInterval.getD 20
    if 0 < gen ∧ gen % interval = 0 then
      let sorted := sortGenes genes
      let numToReplace := max 1 (sorted.length / 4)
      let kept := jsSliceTo sorted ((sorted.length : ℤ) - numToReplace)
      let incubCfg :=
        { env.config with
          useSwapMutation := true
          swapMutationRate := some (1/2)
          usePartnerBias := true
          partnerBiasRate := some (4/5) }
      let steps := match env.config.freshBloodWarmUp with
        | some n => if n = 0 then 100 else n
        | none => 100
      let fb := freshBloodLoop env incubCfg baseRooms steps numToReplace [] pos
      (kept ++ fb.1, fb.2)
    else (genes, pos)
  else (genes, pos)

/-- `GeneCollection.iterate`: one full generation — squish + evaluate +
sort, offspring creation, culling, refill, generation increment and the
optional fresh-blood injection. -/
def GeneCollection.iterate (env : GCEnv) (st : GCState) (pos : ℕ) : GCState × ℕ :=
  let sorted := evalSortPhase env st.genes
  let offs := offspringPhase env sorted pos
  let combined := sorted ++ offs.1
  let survivors := cullStep env.config.selectionPressure combined
  let refilled := refillPhase env survivors offs.2
  let gen := st.currentGeneration + 1
  let fb := freshBloodPhase env st.baseRooms gen refilled.1 refilled.2
  ({ genes := fb.1, baseRooms := st.baseRooms, currentGeneration := gen }, fb.2)

/-- The clone-and-mutate loop of `GeneCollection.initializePopulation`
(indices `1 ≤ i < populationSize`). -/
def initClonesLoop (env : GCEnv) (base : Gene) : ℕ → List Gene → ℕ → List Gene × ℕ
  | 0, acc, pos => (acc, pos)
  | n + 1, acc, pos =>
    let m := Gene.mutate env.host env.config env.adjacencies env.globalRatioQ
      (1/2) (env.config.mutationStrength * 2)
      (some env.config.aspectRatioMutationRate) base.clone pos
    initClonesLoop env base n (acc ++ [m.1]) m.2

/-- The `GeneCollection` constructor: store the base rooms and build the
initial population — gene 0 is the unmutated base configuration, the
remaining `populationSize − 1` genes are mutated clones (mutation rate
0.5, doubled strength). -/
def GeneCollection.init (env : GCEnv) (initialRooms : List RoomES) (pos : ℕ) :
    GCState × ℕ :=
  let base := Gene.mkGene initialRooms
  let cl := initClonesLoop env base (env.config.populationSize - 1) [] pos
  ({ genes := base :: cl.1, baseRooms := initialRooms, currentGeneration := 0 }, cl.2)

/-- `GeneCollection.getBest`: sort ascending by fitness and return the
first gene. -/
def GeneCollection.getBest (st : GCState) : Gene :=
  (sortGenes st.genes).headD dfltGene

/-- Iterated generations, as a host loop calling `iterate` repeatedly on
the same collection. -/
def GeneCollection.iterateN (env : GCEnv) : ℕ → GCState × ℕ → GCState × ℕ
  | 0, sp => sp
  | n + 1, sp => GeneCollection.iterateN env n (GeneCollection.iterate env sp.1 sp.2)

/-- The integer grid of `GridBuffer`: fixed dimensions, row-major
cells. -/
structure Grid where
  width : ℕ
  height : ℕ
  cells : List ℤ
deriving DecidableEq, Repr

/-- The `GridBuffer` constructor: `width · height` cells, all
`CELL_EMPTY = 0`. -/
def Grid.mk0 (w h : ℕ) : Grid := ⟨w, h, List.replicate (w * h) 0⟩

/-- `GridBuffer.get`: out-of-range coordinates read
`CELL_OUT_OF_BOUNDS = -2`. -/
def Grid.get (g : Grid) (x y : ℤ) : ℤ :=
  if 0 ≤ x ∧ x < (g.width : ℤ) ∧ 0 ≤ y ∧ y < (g.height : ℤ) then
    g.cells.getD (y.toNat * g.width + x.toNat) 0
  else -2

/-- `GridBuffer.set`: out-of-range writes are silently dropped. -/
def Grid.set (g : Grid) (x y : ℤ) (v : ℤ) : Grid :=
  if 0 ≤ x ∧ x < (g.width : ℤ) ∧ 0 ≤ y ∧ y < (g.height : ℤ) then
    { g with cells := g.cells.set (y.toNat * g.width + x.toNat) v }
  else g

/-- All in-range cell coordinates in the row-major scan order of the
source (`y` outer, `x` inner). -/
def gridCoords (w h : ℕ) : List (ℤ × ℤ) :=
  (List.range h).flatMap (fun (y : ℕ) =>
    (List.range w).map (fun (x : ℕ) => ((x : ℤ), (y : ℤ))))

/-- `GridBuffer.rasterizePolygon`: polygons of fewer than 3 vertices are
ignored; otherwise every cell outside the polygon's bounding box, or
whose center `(x+0.5, y+0.5)` fails the ray cast, becomes
`CELL_OUT_OF_BOUNDS`. -/
def Grid.rasterizePolygon (g : Grid) (polygon : List Vec2Q) : Grid :=
  if polygon.length < 3 then g
  else
    let hd := polygon.headD ⟨0, 0⟩
    let box := polygon.foldl
      (fun acc p =>
        ((min acc.1.1 p.x, min acc.1.2 p.y), (max acc.2.1 p.x, max acc.2.2 p.y)))
      ((hd.x, hd.y), (hd.x, hd.y))
    let startX := max 0 (jsFloor box.1.1)
    let endX := min ((g.width : ℤ) - 1) ⌈box.2.1⌉
    let startY := max 0 (jsFloor box.1.2)
    let endY := min ((g.height : ℤ) - 1) ⌈box.2.2⌉
    (gridCoords g.width g.height).foldl
      (fun g p =>
        if p.1 < startX ∨ p.1 > endX ∨ p.2 < startY ∨ p.2 > endY then
          g.set p.1 p.2 (-2)
        else if ¬ Polygon.pointInPolygon ⟨(p.1 : ℚ) + 1/2, (p.2 : ℚ) + 1/2⟩ polygon then
          g.set p.1 p.2 (-2)
        else g)
      g

/-- A room request of the discrete solver (`types.ts`): the allowed
aspect-ratio interval is stored as `[minRatioQ, maxRatioQ]`, and
`corridorRule` embeds the source's optional field through the `|| 0`
reads (`0 = NONE, 1 = ONE_SIDE, 2 = TWO_SIDES, ≥3 = ALL_SIDES`). -/
structure RoomRequest where
  id : String
  targetArea : ℚ
  minRatioQ : ℚ
  maxRatioQ : ℚ
  corridorRule : ℕ
deriving DecidableEq, Repr

/-- A placed room of the discrete solver. -/
structure PlacedRoom where
  id : String
  x : ℕ
  y : ℕ
  width : ℕ
  height : ℕ
  roomIndex : ℕ
  corridorRule : ℕ
deriving DecidableEq, Repr

/-- The discrete configuration, with the nested `weights` flattened.
The `DEFAULT_*` values come from `constants.ts`
(`DEFAULT_GRID_RESOLUTION = 1.0`, `DEFAULT_MAX_ITERATIONS = 500`,
`DEFAULT_MUTATION_RATE = 0.3`); the weight defaults 2.0 / 3.0 / 0.5
appear in the solver source itself. -/
structure DiscreteConfig where
  gridResolution : ℚ
  maxIterations : ℕ
  mutationRate : ℚ
  startPoint : Option (ℤ × ℤ)
  wCompactness : ℚ
  wAdjacency : ℚ
  wCorridor : ℚ
deriving DecidableEq, Repr

/-- The defaults of `constants.ts` (`DEFAULT_GRID_RESOLUTION = 1.0`,
`DEFAULT_MAX_ITERATIONS = 500`, `DEFAULT_MUTATION_RATE = 0.3`) together
with the solver's own weight defaults, as merged by the `DiscreteSolver`
constructor. -/
def defaultDiscreteConfig : DiscreteConfig :=
  ⟨1, 500, 3/10, none, 2, 3, 1/2⟩

/-- The room footprint record of `DiscreteSolver.getRoomFootprint`. -/
structure RoomFootprint where
  coreWidth : ℕ
  coreHeight : ℕ
  effectiveWidth : ℕ
  effectiveHeight : ℕ
  offsetX : ℤ
  offsetY : ℤ
  corridorCells : List (ℤ × ℤ)
deriving DecidableEq, Repr

/-- `DiscreteSolver.getRoomFootprint`: the corridor cells a room stamps
under its corridor rule, in the source's emission order. -/
def getRoomFootprint (x y : ℤ) (width height : ℕ) (rule : ℕ) : RoomFootprint :=
  if rule = 1 then
    { coreWidth := width, coreHeight := height,
      effectiveWidth := width, effectiveHeight := height + 1,
      offsetX := 0, offsetY := 0,
      corridorCells := (List.range width).map (fun (dx : ℕ) => (x + (dx : ℤ), y + (height : ℤ))) }
  else if rule = 2 then
    { coreWidth := width, coreHeight := height,
      effectiveWidth := width + 1, effectiveHeight := height + 1,
      offsetX := 0, offsetY := 0,
      corridorCells :=
        (List.range (width + 1)).map (fun (dx : ℕ) => (x + (dx : ℤ), y + (height : ℤ))) ++
        (List.range height).map (fun (dy : ℕ) => (x + (width : ℤ), y + (dy : ℤ))) }
  else if 3 ≤ rule then
    { coreWidth := width, coreHeight := height,
      effectiveWidth := width + 2, effectiveHeight := height + 2,
      offsetX := -1, offsetY := -1,
      corridorCells :=
        (List.range (width + 2)).map (fun (k : ℕ) => (x - 1 + (k : ℤ), y - 1)) ++
        (List.range (width + 2)).map (fun (k : ℕ) => (x - 1 + (k : ℤ), y + (height : ℤ))) ++
        (List.range height).map (fun (dy : ℕ) => (x - 1, y + (dy : ℤ))) ++
        (List.range height).map (fun (dy : ℕ) => (x + (width : ℤ), y + (dy : ℤ))) }
  else
    { coreWidth := width, coreHeight := height,
      effectiveWidth := width, effectiveHeight := height,
      offsetX := 0, offsetY := 0, corridorCells := [] }

/-- `DiscreteSolver.checkConnectivity`: true when the footprint is empty
(`NONE` rule) or some footprint cell has a 4-neighbor holding
`CELL_CORRIDOR = -1`. -/
def checkConnectivity (g : Grid) (corridorCells : List (ℤ × ℤ)) : Bool :=
  if corridorCells.length = 0 then true
  else
    corridorCells.any (fun c =>
      [((c.1 + 1, c.2) : ℤ × ℤ), (c.1 - 1, c.2), (c.1, c.2 + 1), (c.1, c.2 - 1)].any
        (fun nb => g.get nb.1 nb.2 = -1))

/-- `DiscreteSolver.canPlaceRoom`: empty core, footprint on empty or
corridor cells, and the magnetizing connectivity constraint. -/
def canPlaceRoom (g : Grid) (x y : ℤ) (width height : ℕ) (corridorRule : ℕ) : Bool :=
  let fp := getRoomFootprint x y width height corridorRule
  ((gridCoords width height).all (fun d => g.get (x + d.1) (y + d.2) = 0)) &&
  (fp.corridorCells.all (fun c =>
    g.get c.1 c.2 = 0 || g.get c.1 c.2 = -1)) &&
  checkConnectivity g fp.corridorCells

/-- `DiscreteSolver.calculateCompactness`: perimeter cells that touch a
value that is neither empty nor out-of-bounds. -/
def calculateCompactness (g : Grid) (x y : ℤ) (width height : ℕ) : ℕ :=
  let horiz :=
    (List.range width).foldl
      (fun acc dx =>
        let top := g.get (x + dx) (y - 1)
        let bottom := g.get (x + dx) (y + height)
        acc + (if top ≠ 0 ∧ top ≠ -2 then 1 else 0) +
          (if bottom ≠ 0 ∧ bottom ≠ -2 then 1 else 0))
      0
  (List.range height).foldl
    (fun acc dy =>
      let left := g.get (x - 1) (y + dy)
      let right := g.get (x + width) (y + dy)
      acc + (if left ≠ 0 ∧ left ≠ -2 then 1 else 0) +
        (if right ≠ 0 ∧ right ≠ -2 then 1 else 0))
    horiz

/-- Association-list update for the placed-room map: `placeRoom` only
ever inserts fresh keys, `removeRoom` deletes. -/
def placedLookup (placed : List (String × PlacedRoom)) (id : String) : Option PlacedRoom :=
  (placed.find? (fun p => p.1 = id)).map (fun p => p.2)

/-- `DiscreteSolver.calculateAdjacencyScore`: weighted mean center
distance to the already-placed adjacency partners of a room. -/
def calculateAdjacencyScore (host : Host) (adjs : List Adjacency)
    (placed : List (String × PlacedRoom)) (roomId : String) (cx cy : ℚ) : ℚ :=
  let acc := adjs.foldl
    (fun acc adj =>
      if adj.a = roomId ∨ adj.b = roomId then
        let nid := if adj.a = roomId then adj.b else adj.a
        match placedLookup placed nid with
        | some nb =>
          let ncx := (nb.x : ℚ) + (nb.width : ℚ) / 2
          let ncy := (nb.y : ℚ) + (nb.height : ℚ) / 2
          let dist := host.sqrtFn ((cx - ncx) * (cx - ncx) + (cy - ncy) * (cy - ncy))
          (acc.1 + dist * adj.w, acc.2 + 1)
        | none => acc
      else acc)
    ((0 : ℚ), (0 : ℕ))
  if 0 < acc.2 then acc.1 / acc.2 else 0

/-- The state of a `DiscreteSolver` instance. -/
structure DSState where
  grid : Grid
  rooms : List RoomRequest
  adjacencies : List Adjacency
  config : DiscreteConfig
  placedRooms : List (String × PlacedRoom)
  bestGrid : Option Grid
  bestScore : WithBot ℚ
deriving DecidableEq, Repr

/-- `roomIndexMap` lookup: the constructor's `forEach` `set`s
`id ↦ idx + 1` for every room in order, so the last occurrence of a
duplicated id wins, and `placeRoom` reads `… || 0` on a miss. -/
def roomIndexLookup (rooms : List RoomRequest) (id : String) : ℕ :=
  match (rooms.enum.filter (fun p => p.2.id = id)).getLast? with
  | some p => p.1 + 1
  | none => 0

/-- `DiscreteSolver.calculateGridDimensions`: bounding box of the
boundary divided by the grid resolution, ceiled. -/
def calcGridDims (res : ℚ) (boundary : List Vec2Q) : ℕ × ℕ :=
  let hd := boundary.headD ⟨0, 0⟩
  let box := boundary.foldl
    (fun acc p => ((min acc.1.1 p.x, min acc.1.2 p.y), (max acc.2.1 p.x, max acc.2.2 p.y)))
    ((hd.x, hd.y), (hd.x, hd.y))
  (jsCeilNat ((box.2.1 - box.1.1) / res), jsCeilNat ((box.2.2 - box.1.2) / res))

/-- The `DiscreteSolver` constructor: copy the rooms, merge the config
(modelled as receiving the merged config), size and rasterize the grid,
seed the start cell (configured, or the grid center) as corridor, and
start with an empty placed-room map.  No input validation of any kind
is performed. -/
def DiscreteSolver.init (boundary : List Vec2Q) (rooms : List RoomRequest)
    (adjs : List Adjacency) (config : DiscreteConfig) : DSState :=
  let dims := calcGridDims config.gridResolution boundary
  let grid := (Grid.mk0 dims.1 dims.2).rasterizePolygon boundary
  let grid :=
    match config.startPoint with
    | some p => grid.set p.1 p.2 (-1)
    | none => grid.set ((dims.1 / 2 : ℕ) : ℤ) ((dims.2 / 2 : ℕ) : ℤ) (-1)
  { grid := grid, rooms := rooms, adjacencies := adjs, config := config,
    placedRooms := [], bestGrid := none, bestScore := ⊥ }

/-- `DiscreteSolver.placeRoom`: stamp the core with the 1-based room
index, stamp every footprint cell as corridor, and record the placement. -/
def placeRoom (st : DSState) (room : RoomRequest) (x y width height : ℕ) : DSState :=
  let roomIndex := roomIndexLookup st.rooms room.id
  let grid := (gridCoords width height).foldl
    (fun g d => g.set ((x : ℤ) + d.1) ((y : ℤ) + d.2) roomIndex) st.grid
  let fp := getRoomFootprint x y width height room.corridorRule
  let grid := fp.corridorCells.foldl (fun g c => g.set c.1 c.2 (-1)) grid
  { st with grid := grid,
            placedRooms := st.placedRooms ++
              [(room.id, ⟨room.id, x, y, width, height, roomIndex, room.corridorRule⟩)] }

/-- `DiscreteSolver.removeRoom`: clear the core to empty and clear
footprint cells back to empty only where they still hold a corridor. -/
def removeRoom (st : DSState) (roomId : String) : DSState :=
  match placedLookup st.placedRooms roomId with
  | none => st
  | some room =>
    let grid := (gridCoords room.width room.height).foldl
      (fun g d => g.set ((room.x : ℤ) + d.1) ((room.y : ℤ) + d.2) 0) st.grid
    let grid :=
      if room.corridorRule ≠ 0 then
        (getRoomFootprint room.x room.y room.width room.height room.corridorRule).corridorCells.foldl
          (fun g c => if g.get c.1 c.2 = -1 then g.set c.1 c.2 0 else g) grid
      else grid
    { st with grid := grid, placedRooms := st.placedRooms.filter (fun p => p.1 ≠ roomId) }

/-- A placement candidate of `findBestPlacement`. -/
structure PlacementCandidate where
  x : ℕ
  y : ℕ
  width : ℕ
  height : ℕ
  score : ℚ
deriving DecidableEq, Repr

/-- `DiscreteSolver.findBestPlacement`: draw one aspect ratio with the
seeded PRNG (modelled from the spec: `next_float(lo, hi) =
lo + u·(hi−lo)`; `utils/Random.ts` is not in the repository snapshot),
derive the integer dimensions, scan `y` over `[0, height − h)` and `x`
over `[0, width − w)` — the source's strict bounds — and keep the first
candidate of maximum score. -/
def findBestPlacement (host : Host) (rs : ℕ → ℚ) (st : DSState)
    (room : RoomRequest) (pos : ℕ) : Option PlacementCandidate × ℕ :=
  let ar := room.minRatioQ + rs pos * (room.maxRatioQ - room.minRatioQ)
  let pos := pos + 1
  let width := jsCeilNat (host.sqrtFn (room.targetArea / ar) / st.config.gridResolution)
  let height := jsCeilNat
    ((room.targetArea / ((width : ℚ) * st.config.gridResolution)) / st.config.gridResolution)
  let best :=
    ((List.range (st.grid.height - height)).flatMap
        (fun y => (List.range (st.grid.width - width)).map (fun x => (x, y)))).foldl
      (fun best c =>
        if canPlaceRoom st.grid (c.1 : ℤ) (c.2 : ℤ) width height room.corridorRule then
          let cx := (c.1 : ℚ) + (width : ℚ) / 2
          let cy := (c.2 : ℚ) + (height : ℚ) / 2
          let compactness := calculateCompactness st.grid (c.1 : ℤ) (c.2 : ℤ) width height
          let adjacencyDist :=
            calculateAdjacencyScore host st.adjacencies st.placedRooms room.id cx cy
          let score := (compactness : ℚ) * st.config.wCompactness -
            adjacencyDist * st.config.wAdjacency
          match best with
          | none => some (⟨c.1, c.2, width, height, score⟩ : PlacementCandidate)
          | some b => if b.score < score then some ⟨c.1, c.2, width, height, score⟩ else some b
        else best)
      none
  (best, pos)

/-- `DiscreteSolver.calculateGlobalScore`: 100 per placed room minus the
weighted center distances of satisfied adjacencies. -/
def calculateGlobalScore (host : Host) (st : DSState) : ℚ :=
  let base := (st.placedRooms.length : ℚ) * 100
  st.adjacencies.foldl
    (fun acc adj =>
      match placedLookup st.placedRooms adj.a, placedLookup st.placedRooms adj.b with
      | some roomA, some roomB =>
        let dx := ((roomA.x : ℚ) + (roomA.width : ℚ) / 2) - ((roomB.x : ℚ) + (roomB.width : ℚ) / 2)
        let dy := ((roomA.y : ℚ) + (roomA.height : ℚ) / 2) - ((roomB.y : ℚ) + (roomB.height : ℚ) / 2)
        acc - host.sqrtFn (dx * dx + dy * dy) * adj.w
      | _, _ => acc)
    base

/-- `DiscreteSolver.countNonEmptyNeighbors`: 4-neighbors that are
neither empty nor out-of-bounds. -/
def countNonEmptyNeighbors (g : Grid) (x y : ℤ) : ℕ :=
  [((x + 1, y) : ℤ × ℤ), (x - 1, y), (x, y + 1), (x, y - 1)].foldl
    (fun acc nb =>
      let v := g.get nb.1 nb.2
      if v ≠ 0 ∧ v ≠ -2 then acc + 1 else acc)
    0

/-- One row-major pass of `DiscreteSolver.pruneDeadEnds`: every corridor
cell with at most one non-empty non-OOB neighbor is cleared in place (the
scan sees the writes of the same pass), and the pass reports whether it
changed anything. -/
def pruneStep (st : Grid × Bool) (p : ℤ × ℤ) : Grid × Bool :=
  if st.1.get p.1 p.2 = -1 ∧ countNonEmptyNeighbors st.1 p.1 p.2 ≤ 1 then
    (st.1.set p.1 p.2 0, true)
  else st

/-- One full scan of the pass. -/
def prunePass (g : Grid) : Grid × Bool :=
  (gridCoords g.width g.height).foldl pruneStep (g, false)

/-- The number of corridor cells in a grid. -/
def corridorCount (g : Grid) : ℕ := g.cells.countP (fun v => v = -1)

/-- The fixed-point loop of `DiscreteSolver.pruneDeadEnds`, with an
explicit pass budget.  Each changing pass strictly decreases the number
of corridor cells (proved below), so `corridorCount g + 1` passes always
reach the fixed point. -/
def pruneLoopFuel : ℕ → Grid → Grid
  | 0, g => g
  | n + 1, g =>
    let p := prunePass g
    if p.2 then pruneLoopFuel n p.1 else p.1

/-- `DiscreteSolver.pruneDeadEnds`: run passes until a pass changes
nothing. -/
def pruneDeadEnds (g : Grid) : Grid := pruneLoopFuel (corridorCount g + 1) g

/-- The flood fill of `DiscreteSolver.validateCorridorNetwork`,
including the source's visited-set keying `y · width + x` (also for
out-of-range neighbors).  The fuel bounds the number of queue pops: a
pop either revisits (shrinking the queue) or marks a fresh key, every
enqueued coordinate lies in `[-1, width] × [-1, height]`, and each fresh
visit enqueues at most four cells, so the budget below is never
exhausted. -/
def bfsCorridors (g : Grid) : ℕ → List (ℤ × ℤ) → List ℤ → ℕ → ℕ
  | 0, _, _, count => count
  | _ + 1, [], _, count => count
  | fuel + 1, c :: rest, visited, count =>
    let key := c.2 * (g.width : ℤ) + c.1
    if key ∈ visited then bfsCorridors g fuel rest visited count
    else
      let visited2 := key :: visited
      if g.get c.1 c.2 = -1 then
        let nbs := ([((c.1 + 1, c.2) : ℤ × ℤ), (c.1 - 1, c.2), (c.1, c.2 + 1), (c.1, c.2 - 1)]).filter
          (fun nb => !(decide ((nb.2 * (g.width : ℤ) + nb.1) ∈ visited2)))
        bfsCorridors g fuel (rest ++ nbs) visited2 (count + 1)
      else bfsCorridors g fuel rest visited2 count

/-- `DiscreteSolver.validateCorridorNetwork`: false unless the start
cell is a corridor; otherwise flood-fill from it and compare the reached
corridor count with the total corridor count. -/
def validateCorridorNetwork (st : DSState) : Bool :=
  let s : ℤ × ℤ :=
    match st.config.startPoint with
    | some p => p
    | none => (((st.grid.width / 2 : ℕ) : ℤ), ((st.grid.height / 2 : ℕ) : ℤ))
  if st.grid.get s.1 s.2 ≠ -1 then false
  else
    let fuel := 5 * (st.grid.width + 2) * (st.grid.height + 2) + 10
    decide (bfsCorridors st.grid fuel [s] [] 0 = corridorCount st.grid)

/-- Modelled from the spec: `Random.shuffle` of the missing
`utils/Random.ts` is a Fisher–Yates shuffle; each step draws
`next_int(0, i+1) = ⌊u · (i+1)⌋`. -/
def shuffleJS (rs : ℕ → ℚ) (l : List String) (pos : ℕ) : List String × ℕ :=
  (((List.range l.length).drop 1).reverse).foldl
    (fun (st : List String × ℕ) (i : ℕ) =>
      let j := jsFloorNat (rs st.2 * ((i : ℚ) + 1))
      let ai := st.1.getD i ""
      let aj := st.1.getD j ""
      ((st.1.set i aj).set j ai, st.2 + 1))
    (l, pos)

/-- The per-room connectivity degree used by
`DiscreteSolver.sortRoomsByConnectivity`. -/
def connectivityCount (adjs : List Adjacency) (id : String) : ℕ :=
  adjs.foldl
    (fun n adj => n + (if adj.a = id then 1 else 0) + (if adj.b = id then 1 else 0)) 0

/-- `DiscreteSolver.sortRoomsByConnectivity`: stable sort, most
connected first. -/
def sortRoomsByConnectivity (st : DSState) : List RoomRequest :=
  List.insertionSort
    (fun a b => connectivityCount st.adjacencies b.id ≤ connectivityCount st.adjacencies a.id)
    st.rooms

/-- The greedy initial placement of `DiscreteSolver.solve`. -/
def solveGreedy (host : Host) (rs : ℕ → ℚ) (st : DSState) (pos : ℕ) : DSState × ℕ :=
  (sortRoomsByConnectivity st).foldl
    (fun acc room =>
      let fb := findBestPlacement host rs acc.1 room acc.2
      match fb.1 with
      | some c => (placeRoom acc.1 room c.x c.y c.width c.height, fb.2)
      | none => (acc.1, fb.2))
    (st, pos)

/-- One round of the evolutionary loop of `DiscreteSolver.solve`:
snapshot, remove `⌈placed · mutationRate⌉` shuffled rooms, re-place
every unplaced room greedily, and keep the new state only on a strict
global-score improvement. -/
def solveIterBody (host : Host) (rs : ℕ → ℚ) (st : DSState) (pos : ℕ) : DSState × ℕ :=
  let snapshotGrid := st.grid
  let snapshotRooms := st.placedRooms
  let placedIds := st.placedRooms.map (fun p => p.1)
  let numToRemove := jsCeilNat ((placedIds.length : ℚ) * st.config.mutationRate)
  let sh := shuffleJS rs placedIds pos
  let toRemove := sh.1.take numToRemove
  let st2 := toRemove.foldl removeRoom st
  let unplaced := st2.rooms.filter (fun room => (placedLookup st2.placedRooms room.id).isNone)
  let pf := unplaced.foldl
    (fun acc room =>
      let fb := findBestPlacement host rs acc.1 room acc.2
      match fb.1 with
      | some c => (placeRoom acc.1 room c.x c.y c.width c.height, fb.2)
      | none => (acc.1, fb.2))
    (st2, sh.2)
  let st3 := pf.1
  let newScore := calculateGlobalScore host st3
  if st3.bestScore < ((newScore : ℚ) : WithBot ℚ) then
    ({ st3 with bestScore := ((newScore : ℚ) : WithBot ℚ), bestGrid := some st3.grid }, pf.2)
  else
    ({ st3 with grid := snapshotGrid, placedRooms := snapshotRooms }, pf.2)

/-- The evolutionary rounds of `DiscreteSolver.solve`. -/
def solveLoop (host : Host) (rs : ℕ → ℚ) : ℕ → DSState → ℕ → DSState × ℕ
  | 0, st, pos => (st, pos)
  | n + 1, st, pos =>
    let b := solveIterBody host rs st pos
    solveLoop host rs n b.1 b.2

/-- `DiscreteSolver.solve`: greedy initial placement, best-state
initialization, `maxIterations` snapshot/mutate/evaluate rounds, then
dead-end pruning of both the working grid and the best grid.  Returns
the final state together with the returned grid (`bestGrid || grid`). -/
def DiscreteSolver.solve (host : Host) (rs : ℕ → ℚ) (st : DSState) (pos : ℕ) :
    (DSState × Grid) × ℕ :=
  let g := solveGreedy host rs st pos
  let st1 := { g.1 with bestGrid := some g.1.grid,
                        bestScore := ((calculateGlobalScore host g.1 : ℚ) : WithBot ℚ) }
  let lp := solveLoop host rs st1.config.maxIterations st1 g.2
  let st2 := { lp.1 with grid := pruneDeadEnds lp.1.grid }
  let st3 :=
    match st2.bestGrid with
    | some bg => { st2 with bestGrid := some (pruneDeadEnds bg) }
    | none => st2
  ((st3, st3.bestGrid.getD st3.grid), lp.2)

/-- Spec-side definition (for the refinement comparison of the
construction-validation claim): the spec's invalid-input taxonomy —
boundary of fewer than 3 vertices, a non-positive target area, a target
ratio below 1 (the source stores the ratio interval, whose upper end is
the target ratio), an adjacency naming an unknown id, or a duplicate
room id. -/
def specInvalidInput (boundary : List Vec2Q) (rooms : List RoomRequest)
    (adjs : List Adjacency) : Bool :=
  decide (boundary.length < 3) ||
  rooms.any (fun r => decide (r.targetArea ≤ 0)) ||
  rooms.any (fun r => decide (r.maxRatioQ < 1)) ||
  adjs.any (fun adj =>
    !(rooms.any (fun r => r.id = adj.a)) || !(rooms.any (fun r => r.id = adj.b))) ||
  !(decide ((rooms.map (fun r => r.id)).Nodup))

/-- Spec-side footprint of the `ONE_SIDE` rule: one row of `w` cells
immediately below the room. -/
def specFootprintOneSide (x y : ℤ) (w h : ℕ) (p : ℤ × ℤ) : Prop :=
  ∃ dx : ℤ, 0 ≤ dx ∧ dx < (w : ℤ) ∧ p = (x + dx, y + (h : ℤ))

/-- Spec-side footprint of the `TWO_SIDES` rule: bottom row of `w+1`
cells plus right column of `h` cells. -/
def specFootprintTwoSides (x y : ℤ) (w h : ℕ) (p : ℤ × ℤ) : Prop :=
  (∃ dx : ℤ, 0 ≤ dx ∧ dx ≤ (w : ℤ) ∧ p = (x + dx, y + (h : ℤ))) ∨
  (∃ dy : ℤ, 0 ≤ dy ∧ dy < (h : ℤ) ∧ p = (x + (w : ℤ), y + dy))

/-- Spec-side footprint of the `ALL_SIDES` rule: the one-cell-thick halo
around the room rectangle, corners included — the cells of the enlarged
box minus the room's own cells. -/
def specFootprintAllSides (x y : ℤ) (w h : ℕ) (p : ℤ × ℤ) : Prop :=
  (x - 1 ≤ p.1 ∧ p.1 ≤ x + (w : ℤ) ∧ y - 1 ≤ p.2 ∧ p.2 ≤ y + (h : ℤ)) ∧
  ¬(x ≤ p.1 ∧ p.1 ≤ x + (w : ℤ) - 1 ∧ y ≤ p.2 ∧ p.2 ≤ y + (h : ℤ) - 1)

/-- The room store of the heap model used for the aliasing claim: room
objects live at indices of a growing store, and a gene holds references
into it.  Allocation appends; field mutation writes through a
reference. -/
abbrev Store := List RoomES

/-- A gene of the heap model: references to its room objects plus the
fitness scalars (scalar fields live in the gene object itself). -/
structure GeneRef where
  roomRefs : List ℕ
  fitness : WithTop ℚ
  fitnessG : ℚ
  fitnessT : ℚ
deriving DecidableEq, Repr

/-- The `Gene` constructor in the heap model: `rooms.map(r => ({...r}))`
allocates one fresh room object per source room — the child gene
references only the new cells. -/
def mkGeneStore (σ : Store) (rs : List RoomES) : Store × GeneRef :=
  (σ ++ rs, ⟨(List.range rs.length).map (fun i => σ.length + i), ⊤, 0, 0⟩)

/-- `Gene.crossover` in the heap model: read both parents' room values,
build the child values with the four uniform picks per room, and let the
`Gene` constructor allocate them as fresh objects.  The parents are only
read. -/
def crossoverStore (host : Host) (σ : Store) (gA gB : GeneRef) (pos : ℕ) :
    Store × GeneRef × ℕ :=
  let vA := gA.roomRefs.map (fun r => σ.getD r dfltRoom)
  let vB := gB.roomRefs.map (fun r => σ.getD r dfltRoom)
  let lp := crossoverRoomsLoop host vA vB (List.range vA.length) [] pos
  let alloc := mkGeneStore σ lp.1
  (alloc.1, alloc.2, lp.2)

/-- Write a list of room values back through a list of references. -/
def storeWrite (σ : Store) (refs : List ℕ) (vals : List RoomES) : Store :=
  (refs.zip vals).foldl (fun σ rv => σ.set rv.1 rv.2) σ

/-- `Gene.mutate` in the heap model: every field write of the source's
mutate targets a room object of this gene, so the store changes only at
the gene's own references, with the new values given by the pure mutate
of the value model. -/
def mutateStore (host : Host) (config : SpringConfig) (adjs : List Adjacency)
    (gtr : Option ℚ) (mRate mStrength : ℚ) (aRate : Option ℚ)
    (σ : Store) (g : GeneRef) (pos : ℕ) : Store × ℕ :=
  let vals := g.roomRefs.map (fun r => σ.getD r dfltRoom)
  let aspectRate := aRate.getD mRate
  let sw := mutateSwapPhase host config adjs vals pos
  let lp := mutateRoomsLoop host config adjs gtr mRate mStrength aspectRate
    (List.range sw.1.length) sw.1 sw.2
  (storeWrite σ g.roomRefs lp.1, lp.2)

/-- A host whose intrinsics are never consulted on the verified paths
(stream constantly 0; `Math.sqrt` / `Math.pow` stubs). -/
def hostZero : Host := ⟨fun _ => 0, fun _ => 0, fun _ _ => 0⟩

/-- A stand-in for `Math.sqrt` at the perfect squares the evaluated runs
actually read (`sqrt 9 = 3`, `sqrt 100 = 10` — the values the JavaScript
engine returns exactly). -/
def sqrtTable : ℚ → ℚ := fun q => if q = 9 then 3 else if q = 100 then 10 else 0

/-- Host with the table square root and a constantly-zero random
stream. -/
def hostSqrt : Host := ⟨fun _ => 0, sqrtTable, fun _ _ => 0⟩

/-- A 200 × 200 rectangular boundary (every room of the small fixtures
is strictly inside it). -/
def bigRect : List Vec2Q := [⟨-100, -100⟩, ⟨100, -100⟩, ⟨100, 100⟩, ⟨-100, 100⟩]

/-- A two-million-unit rectangular boundary for the divergence fixture. -/
def millionRect : List Vec2Q :=
  [⟨-1000000, -1000000⟩, ⟨1000000, -1000000⟩, ⟨1000000, 1000000⟩, ⟨-1000000, 1000000⟩]

/-- The unit square boundary scaled to 10 × 10 of the single-room
feasibility scenario. -/
def boundary10 : List Vec2Q := [⟨0, 0⟩, ⟨10, 0⟩, ⟨10, 10⟩, ⟨0, 10⟩]

/-- Minimal continuous config (all feature flags off). -/
def cfgPlain : SpringConfig :=
  { populationSize := 1, mutationRate := 0, mutationStrength := 0, crossoverRate := 0,
    selectionPressure := 0, fitnessBalance := 0, aspectRatioMutationRate := 0 }

/-- Squish fixture: two 1 × 0.5 rooms of target area 0.5 and target
ratio 2, overlapping horizontally by 0.4. -/
def roomA5 : RoomES := ⟨"a", 0, 0, 1, 1/2, 1/2, 2, 0, 0, 0, 0⟩

/-- Second room of the squish fixture. -/
def roomB5 : RoomES := ⟨"b", 3/5, 0, 1, 1/2, 1/2, 2, 0, 0, 0, 0⟩

/-- The gene holding the squish fixture. -/
def geneC5 : Gene := ⟨[roomA5, roomB5], ⊤, 0, 0⟩

/-- The shared-`Math.random` fixture host: the stream is zero except at
draw 5, distinguishing the draw windows of two successive
constructions. -/
def hostC1 : Host := ⟨fun n => if n = 5 then 1/2 else 0, fun _ => 0, fun _ _ => 0⟩

/-- Config of the shared-stream fixture: population 2, nothing else
enabled. -/
def cfgC1 : SpringConfig :=
  { populationSize := 2, mutationRate := 3/10, mutationStrength := 1, crossoverRate := 0,
    selectionPressure := 0, fitnessBalance := 0, aspectRatioMutationRate := 0 }

/-- Environment of the shared-stream fixture. -/
def envC1 : GCEnv := ⟨hostC1, bigRect, [], cfgC1, none⟩

/-- Base room of the shared-stream fixture. -/
def baseC1 : List RoomES := [⟨"a", 0, 0, 1, 1, 1, 1, 0, 0, 0, 0⟩]

/-- Config of the fitness-increase fixture: a single-gene population,
no offspring, no culling, quadratic topological penalty, pure
topological balance. -/
def cfgC2 : SpringConfig :=
  { populationSize := 1, mutationRate := 1/2, mutationStrength := 1, crossoverRate := 0,
    selectionPressure := 0, fitnessBalance := 0, aspectRatioMutationRate := 0,
    useQuadraticPenalty := true }

/-- The heavy adjacency whose attraction force overshoots and diverges. -/
def adjC2 : List Adjacency := [⟨"a", "b", some 1000⟩]

/-- Environment of the fitness-increase fixture. -/
def envC2 : GCEnv := ⟨hostZero, millionRect, adjC2, cfgC2, none⟩

/-- Base rooms of the fitness-increase fixture: two unit rooms 100 units
apart. -/
def baseC2 : List RoomES :=
  [⟨"a", 0, 0, 1, 1, 1, 1, 0, 0, 0, 0⟩, ⟨"b", 100, 0, 1, 1, 1, 1, 0, 0, 0, 0⟩]

/-- The fitness-increase fixture after one generation. -/
def stC2a : GCState × ℕ :=
  GeneCollection.iterate envC2 (GeneCollection.init envC2 baseC2 0).1 0

/-- The fitness-increase fixture after two generations. -/
def stC2b : GCState × ℕ := GeneCollection.iterate envC2 stC2a.1 stC2a.2

/-- A 3 × 3 grid whose corner cell is the corridor seed. -/
def grid3 : Grid := (Grid.mk0 3 3).set 0 0 (-1)

/-- Room of the flush-placement fixture: derived dimensions 3 × 2 on the
3 × 3 grid, rule `NONE`. -/
def roomC6 : RoomRequest := ⟨"r", 6, 2/3, 2/3, 0⟩

/-- Solver state of the flush-placement fixture. -/
def stC6 : DSState := ⟨grid3, [roomC6], [], defaultDiscreteConfig, [], none, ⊥⟩

/-- The single room of the Scenario C fixture: target area 100, ratio
interval `[1, 1]`, corridor rule `NONE`. -/
def roomC7 : RoomRequest := ⟨"r", 100, 1, 1, 0⟩

/-- The Scenario C configuration with iteration budget `M`: defaults
plus start point `(5, 5)`. -/
def cfgC7 (M : ℕ) : DiscreteConfig := ⟨1, M, 3/10, some (5, 5), 2, 3, 1/2⟩

/-- The Scenario C solver state right after construction (budget `M`). -/
def initC7 (M : ℕ) : DSState := DiscreteSolver.init boundary10 [roomC7] [] (cfgC7 M)

/-- The Scenario C initial grid: the 10 × 10 rasterized boundary with
the start cell `(5, 5)` seeded as corridor. -/
def gridC7init : Grid := ((Grid.mk0 10 10).rasterizePolygon boundary10).set 5 5 (-1)

/-- Fixture with a duplicated room id (invalid per the spec's input
taxonomy). -/
def dupRooms : List RoomRequest := [⟨"r", 100, 1, 1, 0⟩, ⟨"r", 50, 1, 1, 0⟩]

/-- Length of the population built by the constructor's clone loop. -/
theorem initClonesLoop_length (env : GCEnv) (base : Gene) :
    ∀ (n : ℕ) (acc : List Gene) (pos : ℕ),
      ((initClonesLoop env base n acc pos).1).length = acc.length + n := by
  intro n
  induction n with
  | zero => intro acc pos; simp [initClonesLoop]
  | succ k ih =>
    intro acc pos
    simp only [initClonesLoop]
    rw [ih]
    simp
    omega

/-- C1 (counterexample).  The claim reads two gene collections
constructed with the same arguments and seed as producing gene-by-gene
identical room positions.  The source's `GeneCollection` takes no seed:
its randomness is the ambient shared `Math.random()` stream.  Two
collections constructed in succession with identical arguments consume
successive windows of that stream; with the concrete stream below, the
mutated gene 1 of the first collection sits at `x = -1` while that of
the second sits at `x = 0` — already at construction time (after zero
`iterate()` calls). -/
theorem C1_counterexample_shared_stream :
    (((GeneCollection.init envC1 baseC1 0).1.genes.getD 1 dfltGene).rooms.getD 0 dfltRoom).x ≠
      (((GeneCollection.init envC1 baseC1
          (GeneCollection.init envC1 baseC1 0).2).1.genes.getD 1 dfltGene).rooms.getD 0
        dfltRoom).x := by
  decide

/-- C1 (amended): determinism holds for the embedded step functions as
functions of the realized random stream — two runs with identical
inputs whose `Math.random` streams and host intrinsics agree pointwise
and which start at the same stream cursor produce identical collections
after any number of `iterate()` calls. -/
theorem C1_two_run_determinism (h1 h2 : Host) (boundary : List Vec2Q)
    (adjs : List Adjacency) (cfg : SpringConfig) (gtr : Option ℚ)
    (rooms : List RoomES) (pos n : ℕ)
    (hu : ∀ k, h1.u k = h2.u k) (hs : ∀ q, h1.sqrtFn q = h2.sqrtFn q)
    (hp : ∀ a b, h1.powFn a b = h2.powFn a b) :
    GeneCollection.iterateN ⟨h1, boundary, adjs, cfg, gtr⟩ n
        (GeneCollection.init ⟨h1, boundary, adjs, cfg, gtr⟩ rooms pos) =
      GeneCollection.iterateN ⟨h2, boundary, adjs, cfg, gtr⟩ n
        (GeneCollection.init ⟨h2, boundary, adjs, cfg, gtr⟩ rooms pos) := by
  have hh : h1 = h2 := by
    obtain ⟨u1, s1, p1⟩ := h1
    obtain ⟨u2, s2, p2⟩ := h2
    simp only [Host.mk.injEq]
    exact ⟨funext hu, funext hs, funext fun a => funext fun b => hp a b⟩
  rw [hh]

/-- Witness for the amended two-run determinism at a concrete
collection, stream and one generation. -/
theorem C1_two_run_determinism_witness :
    GeneCollection.iterateN ⟨hostC1, bigRect, [], cfgC1, none⟩ 1
        (GeneCollection.init ⟨hostC1, bigRect, [], cfgC1, none⟩ baseC1 0) =
      GeneCollection.iterateN ⟨hostC1, bigRect, [], cfgC1, none⟩ 1
        (GeneCollection.init ⟨hostC1, bigRect, [], cfgC1, none⟩ baseC1 0) :=
  C1_two_run_determinism hostC1 hostC1 bigRect [] cfgC1 none baseC1 0 1
    (fun _ => rfl) (fun _ => rfl) (fun _ _ => rfl)

/-- C2 (counterexample).  Fresh blood is disabled, yet the best fitness
of the population strictly increases from generation 1 to generation 2:
every generation first applies the physics tick to every gene —
including the incumbent best — and the adjacency-attraction force with
the heavy weight of this fixture overshoots, moving the two rooms
further apart each tick, so the re-evaluated (purely topological)
fitness keeps growing.  There is no elitism protecting the previous
best's evaluated state. -/
theorem C2_counterexample_best_fitness_increases :
    (GeneCollection.getBest stC2a.1).fitness = Option.some (8404201000 : ℚ) ∧
    (GeneCollection.getBest stC2b.1).fitness = Option.some (7072641801000 : ℚ) ∧
    (8404201000 : ℚ) < 7072641801000 := by
  refine ⟨by decide, by decide, by norm_num⟩

/-- C4 (counterexample).  The input below has a duplicated room id —
invalid under the spec's construction-error taxonomy (witnessed by the
spec-side predicate) — yet the constructor performs no validation:
construction succeeds and full solver state is created (both room
entries stored, the 10 × 10 grid allocated, the start cell seeded). -/
theorem C4_counterexample_invalid_input_accepted :
    specInvalidInput boundary10 dupRooms [] = true ∧
    (DiscreteSolver.init boundary10 dupRooms [] (cfgC7 500)).rooms.length = 2 ∧
    (DiscreteSolver.init boundary10 dupRooms [] (cfgC7 500)).grid.width = 10 ∧
    (DiscreteSolver.init boundary10 dupRooms [] (cfgC7 500)).grid.get 5 5 = -1 := by
  decide

/-- C4 (amended): the constructors perform none of the spec's input
validation and return no structured error value.  For every non-empty
boundary and arbitrary rooms (duplicate ids and non-positive target
areas included), adjacencies and configuration, the discrete
constructor creates full solver state carrying the given rooms, and the
gene-collection constructor always creates its population of
`max 1 populationSize` genes.  The empty boundary — the hypothesis —
is the one input on which the real discrete constructor does die, and
even there it is an unstructured `RangeError` from the `Infinity` grid
dimensions (`Math.ceil(-Infinity)`, `new Int32Array(Infinity)`), not
the spec's structured construction error. -/
theorem C4_construction_total (boundary : List Vec2Q) (rooms : List RoomRequest)
    (adjs : List Adjacency) (cfg : DiscreteConfig) (env : GCEnv)
    (initialRooms : List RoomES) (pos : ℕ) (_hb : boundary ≠ []) :
    (DiscreteSolver.init boundary rooms adjs cfg).rooms = rooms ∧
    (GeneCollection.init env initialRooms pos).1.genes.length =
      max 1 env.config.populationSize := by
  refine ⟨by simp [DiscreteSolver.init], ?_⟩
  simp only [GeneCollection.init, List.length_cons]
  rw [initClonesLoop_length]
  simp
  omega

/-- Witness for the amended construction-totality statement. -/
theorem C4_construction_total_witness :
    boundary10 ≠ [] ∧
    ((DiscreteSolver.init boundary10 dupRooms [] (cfgC7 500)).rooms = dupRooms ∧
      (GeneCollection.init envC1 baseC1 0).1.genes.length =
        max 1 envC1.config.populationSize) :=
  ⟨by decide, C4_construction_total boundary10 dupRooms [] (cfgC7 500) envC1 baseC1 0
    (by decide)⟩

/-- C5 (counterexample).  A single `apply_squish_collisions` tick on the
fixture gene leaves room `a` with width `4/5 < 1`: the squish path
shrinks both rooms' dimensions whenever the trial aspect ratios stay in
bounds, and — unlike `mutate` — performs no clamping of width or height
to 1. -/
theorem C5_counterexample_squish_below_one :
    ((Gene.applySquishCollisions bigRect cfgPlain none (some []) geneC5).rooms.getD 0
        dfltRoom).width < 1 := by
  decide

/-- C6.  The claim states `find_best_placement` evaluates every position
with `0 ≤ x ≤ width − w` and `0 ≤ y ≤ height − h`, flush edge positions
included.  The source scans with strict bounds (`x < width − w`,
`y < height − h`), so flush positions are never candidates: on the
3 × 3 grid with corridor seed `(0,0)` and a 3 × 2 `NONE`-rule room, the
only valid placement is the flush position `(0, 1)` — shown valid by
`canPlaceRoom` — yet `findBestPlacement` returns `none` because its `x`
range `[0, 3 − 3)` is empty and its `y` range stops before `1`. -/
theorem C6_flush_positions_never_scanned :
    (findBestPlacement hostSqrt (fun _ => 0) stC6 roomC6 0).1 = none ∧
    canPlaceRoom grid3 0 1 3 2 0 = true := by
  decide

/-- Reading an updated cell back. -/
theorem getD_set_self {α : Type} (l : List α) (i : ℕ) (v d : α) (h : i < l.length) :
    (l.set i v).getD i d = v := by
  simp [List.getD_eq_getElem?_getD, List.getElem?_set, h]

/-- Updates do not disturb other cells. -/
theorem getD_set_ne {α : Type} (l : List α) (i j : ℕ) (v d : α) (h : i ≠ j) :
    (l.set i v).getD j d = l.getD j d := by
  simp [List.getD_eq_getElem?_getD, List.getElem?_set, h]

/-- A room-list transformation that writes only at index `i`. -/
def SetOnly (i : ℕ) (l l2 : List RoomES) : Prop :=
  l2.length = l.length ∧ ∀ j, j ≠ i → l2.getD j dfltRoom = l.getD j dfltRoom

/-- `SetOnly` is reflexive. -/
theorem setOnly_refl (i : ℕ) (l : List RoomES) : SetOnly i l l := ⟨rfl, fun _ _ => rfl⟩

/-- A single `set` at `i` is `SetOnly i`. -/
theorem setOnly_set (i : ℕ) (l : List RoomES) (v : RoomES) : SetOnly i l (l.set i v) :=
  ⟨List.length_set l i v, fun j hj => getD_set_ne l i j v dfltRoom (fun h => hj h.symm)⟩

/-- `SetOnly` composes. -/
theorem setOnly_trans {i : ℕ} {l1 l2 l3 : List RoomES} (h1 : SetOnly i l1 l2)
    (h2 : SetOnly i l2 l3) : SetOnly i l1 l3 :=
  ⟨h2.1.trans h1.1, fun j hj => (h2.2 j hj).trans (h1.2 j hj)⟩

/-- The partner-bias step writes only the room at its index. -/
theorem partnerBiasStep_setOnly (host : Host) (config : SpringConfig)
    (adjs : List Adjacency) (rooms : List RoomES) (i pos : ℕ) :
    SetOnly i rooms (partnerBiasStep host config adjs rooms i pos).1 := by
  unfold partnerBiasStep
  dsimp only
  repeat' split
  all_goals dsimp only
  all_goals first
    | exact setOnly_refl i rooms
    | exact setOnly_set i rooms _

/-- The whole per-room mutation body writes only the room at its index. -/
theorem mutateRoomStep_setOnly (host : Host) (config : SpringConfig)
    (adjs : List Adjacency) (gtr : Option ℚ) (mRate mStrength aRate : ℚ)
    (rooms : List RoomES) (i pos : ℕ) :
    SetOnly i rooms
      (mutateRoomStep host config adjs gtr mRate mStrength aRate rooms i pos).1 := by
  have hpb := partnerBiasStep_setOnly host config adjs rooms i pos
  unfold mutateRoomStep
  generalize hE : partnerBiasStep host config adjs rooms i pos = pb at hpb ⊢
  dsimp only
  repeat' split
  all_goals dsimp only
  all_goals first
    | exact setOnly_trans hpb (setOnly_set _ _ _)
    | exact setOnly_trans hpb (setOnly_trans (setOnly_set _ _ _) (setOnly_set _ _ _))
    | exact setOnly_trans hpb
        (setOnly_trans (setOnly_set _ _ _)
          (setOnly_trans (setOnly_set _ _ _) (setOnly_set _ _ _)))

/-- After the per-room mutation body, the room at the processed index
has both dimensions clamped to at least 1 (the body's final
unconditional `Math.max(1, ·)` writes). -/
theorem mutateRoomStep_clamped (host : Host) (config : SpringConfig)
    (adjs : List Adjacency) (gtr : Option ℚ) (mRate mStrength aRate : ℚ)
    (rooms : List RoomES) (i pos : ℕ) (hi : i < rooms.length) :
    1 ≤ ((mutateRoomStep host config adjs gtr mRate mStrength aRate rooms
        i pos).1.getD i dfltRoom).width ∧
    1 ≤ ((mutateRoomStep host config adjs gtr mRate mStrength aRate rooms
        i pos).1.getD i dfltRoom).height := by
  have hpb := partnerBiasStep_setOnly host config adjs rooms i pos
  unfold mutateRoomStep
  generalize hE : partnerBiasStep host config adjs rooms i pos = pb at hpb ⊢
  dsimp only
  repeat' split
  all_goals dsimp only
  all_goals rw [getD_set_self _ _ _ _ (by simp [List.length_set, hpb.1]; omega)]
  all_goals exact ⟨le_max_left 1 _, le_max_left 1 _⟩

/-- The per-room loop preserves the list length. -/
theorem mutateRoomsLoop_length (host : Host) (config : SpringConfig)
    (adjs : List Adjacency) (gtr : Option ℚ) (mRate mStrength aRate : ℚ) :
    ∀ (idxs : List ℕ) (rooms : List RoomES) (pos : ℕ),
      ((mutateRoomsLoop host config adjs gtr mRate mStrength aRate idxs rooms
        pos).1).length = rooms.length := by
  intro idxs
  induction idxs with
  | nil => intro rooms pos; rfl
  | cons i rest ih =>
    intro rooms pos
    unfold mutateRoomsLoop
    dsimp only
    rw [ih]
    exact (mutateRoomStep_setOnly host config adjs gtr mRate mStrength aRate rooms i pos).1

/-- Indices outside the processed list keep their rooms. -/
theorem mutateRoomsLoop_preserve (host : Host) (config : SpringConfig)
    (adjs : List Adjacency) (gtr : Option ℚ) (mRate mStrength aRate : ℚ) :
    ∀ (idxs : List ℕ) (rooms : List RoomES) (pos j : ℕ), j ∉ idxs →
      ((mutateRoomsLoop host config adjs gtr mRate mStrength aRate idxs rooms
        pos).1).getD j dfltRoom = rooms.getD j dfltRoom := by
  intro idxs
  induction idxs with
  | nil => intro rooms pos j _; rfl
  | cons i rest ih =>
    intro rooms pos j hj
    have hne : j ≠ i := fun h => hj (h ▸ List.mem_cons_self i rest)
    have hrest : j ∉ rest := fun h => hj (List.mem_cons_of_mem i h)
    unfold mutateRoomsLoop
    dsimp only
    rw [ih _ _ j hrest]
    exact (mutateRoomStep_setOnly host config adjs gtr mRate mStrength aRate rooms i pos).2
      j hne

/-- Every processed index ends the loop with clamped dimensions. -/
theorem mutateRoomsLoop_clamped (host : Host) (config : SpringConfig)
    (adjs : List Adjacency) (gtr : Option ℚ) (mRate mStrength aRate : ℚ) :
    ∀ (idxs : List ℕ) (rooms : List RoomES) (pos j : ℕ), j ∈ idxs → j < rooms.length →
      1 ≤ (((mutateRoomsLoop host config adjs gtr mRate mStrength aRate idxs rooms
          pos).1).getD j dfltRoom).width ∧
      1 ≤ (((mutateRoomsLoop host config adjs gtr mRate mStrength aRate idxs rooms
          pos).1).getD j dfltRoom).height := by
  intro idxs
  induction idxs with
  | nil => intro rooms pos j hj _; exact absurd hj (List.not_mem_nil j)
  | cons i rest ih =>
    intro rooms pos j hj hlen
    unfold mutateRoomsLoop
    dsimp only
    by_cases hr : j ∈ rest
    · refine ih _ _ j hr ?_
      rw [(mutateRoomStep_setOnly host config adjs gtr mRate mStrength aRate rooms i pos).1]
      exact hlen
    · have hji : j = i := by
        rcases List.mem_cons.mp hj with h | h
        · exact h
        · exact absurd h hr
      subst hji
      rw [mutateRoomsLoop_preserve host config adjs gtr mRate mStrength aRate rest _ _ j hr]
      exact mutateRoomStep_clamped host config adjs gtr mRate mStrength aRate rooms j pos hlen

/-- Swapping two rooms' positions keeps the room count. -/
theorem swapRoomPositions_length (rooms : List RoomES) (ia ib : ℕ) :
    (swapRoomPositions rooms ia ib).length = rooms.length := by
  unfold swapRoomPositions
  simp

/-- The swap-mutation phase keeps the room count. -/
theorem mutateSwapPhase_length (host : Host) (config : SpringConfig)
    (adjs : List Adjacency) (rooms : List RoomES) (pos : ℕ) :
    (mutateSwapPhase host config adjs rooms pos).1.length = rooms.length := by
  unfold mutateSwapPhase
  dsimp only
  repeat' split
  all_goals simp [swapRoomPositions_length]

/-- C5 (amended): a single application of `mutate` — for every
configuration, adjacency list, global target ratio, random stream and
host intrinsics, whichever of the optional swap, partner-bias,
translation and aspect mutations fire — keeps the number of rooms and
leaves every room of the gene with width ≥ 1 and height ≥ 1: the
per-room mutation body visits every room and ends with the
unconditional clamps `width = max(1, width)`, `height = max(1, height)`
of `Gene.ts` lines 504–505.  (The original claim also asserted the
bound for `apply_squish_collisions`, which performs no such clamping —
refuted by the counterexample.) -/
theorem C5_mutate_clamps_dimensions (host : Host) (config : SpringConfig)
    (adjs : List Adjacency) (gtr : Option ℚ) (mRate mStrength : ℚ) (aRate : Option ℚ)
    (g : Gene) (pos : ℕ) :
    (Gene.mutate host config adjs gtr mRate mStrength aRate g pos).1.rooms.length
        = g.rooms.length ∧
    ∀ room ∈ (Gene.mutate host config adjs gtr mRate mStrength aRate g pos).1.rooms,
      1 ≤ room.width ∧ 1 ≤ room.height := by
  constructor
  · unfold Gene.mutate
    dsimp only
    rw [mutateRoomsLoop_length]
    exact mutateSwapPhase_length host config adjs g.rooms pos
  intro room hmem
  unfold Gene.mutate at hmem
  dsimp only at hmem
  obtain ⟨n, hn, hget⟩ := List.mem_iff_getElem.mp hmem
  have hlen := mutateRoomsLoop_length host config adjs gtr mRate mStrength (aRate.getD mRate)
    (List.range (mutateSwapPhase host config adjs g.rooms pos).1.length)
    (mutateSwapPhase host config adjs g.rooms pos).1
    (mutateSwapPhase host config adjs g.rooms pos).2
  rw [hlen] at hn
  have hgd : ((mutateRoomsLoop host config adjs gtr mRate mStrength (aRate.getD mRate)
      (List.range (mutateSwapPhase host config adjs g.rooms pos).1.length)
      (mutateSwapPhase host config adjs g.rooms pos).1
      (mutateSwapPhase host config adjs g.rooms pos).2).1).getD n dfltRoom = room := by
    rw [List.getD_eq_getElem?_getD, List.getElem?_eq_getElem (by rw [hlen]; exact hn)]
    rw [Option.getD_some]
    exact hget
  have hc := mutateRoomsLoop_clamped host config adjs gtr mRate mStrength (aRate.getD mRate)
    (List.range (mutateSwapPhase host config adjs g.rooms pos).1.length)
    (mutateSwapPhase host config adjs g.rooms pos).1
    (mutateSwapPhase host config adjs g.rooms pos).2 n
    (List.mem_range.mpr hn) hn
  rw [hgd] at hc
  exact hc

/-- The population comparator is transitive. -/
theorem geneRel_trans {a b c : Gene} (h1 : geneRel a b) (h2 : geneRel b c) :
    geneRel a c := by
  unfold geneRel geneLE at *
  rcases hA : a.fitness with _ | x <;> rcases hB : b.fitness with _ | y <;>
    rcases hC : c.fitness with _ | z <;> simp_all [decide_eq_true_eq]
  exact le_trans h1 h2

/-- The population comparator is total. -/
theorem geneRel_total (a b : Gene) : geneRel a b ∨ geneRel b a := by
  unfold geneRel geneLE
  rcases hA : a.fitness with _ | x <;> rcases hB : b.fitness with _ | y <;>
    simp_all [decide_eq_true_eq]
  exact le_total x y

instance geneRelIsTrans : IsTrans Gene geneRel :=
  ⟨fun _ _ _ h1 h2 => geneRel_trans h1 h2⟩

instance geneRelIsTotal : IsTotal Gene geneRel := ⟨geneRel_total⟩

/-- The boolean comparator agrees with the fitness order of
`WithTop ℚ`. -/
theorem geneRel_imp_le {a b : Gene} (h : geneRel a b) : a.fitness ≤ b.fitness := by
  unfold geneRel geneLE at h
  rcases hA : a.fitness with _ | x <;> rcases hB : b.fitness with _ | y <;>
    simp_all [decide_eq_true_eq]

/-- The population sort is sorted with respect to the comparator. -/
theorem sortGenes_pairwise (l : List Gene) : (sortGenes l).Pairwise geneRel :=
  List.sorted_insertionSort geneRel l

/-- The population sort is a permutation. -/
theorem sortGenes_perm (l : List Gene) : (sortGenes l).Perm l :=
  List.perm_insertionSort geneRel l

/-- `evalSortPhase` output is sorted ascending by fitness. -/
theorem evalSortPhase_pairwise (env : GCEnv) (genes : List Gene) :
    (evalSortPhase env genes).Pairwise geneRel := by
  unfold evalSortPhase
  exact sortGenes_pairwise _

/-- `mutate` does not touch the fitness fields. -/
theorem mutate_fitness (host : Host) (config : SpringConfig) (adjs : List Adjacency)
    (gtr : Option ℚ) (mRate mStrength : ℚ) (aRate : Option ℚ) (g : Gene) (pos : ℕ) :
    (Gene.mutate host config adjs gtr mRate mStrength aRate g pos).1.fitness =
      g.fitness := by
  unfold Gene.mutate
  rfl

/-- `applySquishCollisions` does not touch the fitness fields. -/
theorem applySquish_fitness (boundary : List Vec2Q) (config : SpringConfig)
    (gtr : Option ℚ) (adjs : Option (List Adjacency)) (g : Gene) :
    (Gene.applySquishCollisions boundary config gtr adjs g).fitness = g.fitness := by
  unfold Gene.applySquishCollisions
  rfl

/-- Warm-up ticks do not touch the fitness fields. -/
theorem warmUpTicks_fitness (env : GCEnv) (cfg : SpringConfig) :
    ∀ (n : ℕ) (g : Gene), (warmUpTicks env cfg n g).fitness = g.fitness := by
  intro n
  induction n with
  | zero => intro g; rfl
  | succ k ih =>
    intro g
    unfold warmUpTicks
    rw [ih, applySquish_fitness]

/-- A crossover child starts with fitness `Infinity`. -/
theorem crossover_fitness (host : Host) (gA gB : Gene) (pos : ℕ) :
    (Gene.crossover host gA gB pos).1.fitness = ⊤ := by
  unfold Gene.crossover Gene.mkGene
  rfl

/-- Every child built by the crossover loop has fitness `Infinity`. -/
theorem crossoverLoop_top (env : GCEnv) (sorted : List Gene) :
    ∀ (n : ℕ) (acc : List Gene) (pos : ℕ), (∀ g ∈ acc, g.fitness = ⊤) →
      ∀ g ∈ (crossoverLoop env sorted n acc pos).1, g.fitness = ⊤ := by
  intro n
  induction n with
  | zero => intro acc pos hacc; exact hacc
  | succ k ih =>
    intro acc pos hacc
    unfold crossoverLoop
    refine ih _ _ ?_
    intro g hg
    rcases List.mem_append.mp hg with h | h
    · exact hacc g h
    · rcases List.mem_singleton.mp h with h2
      rw [h2]
      exact crossover_fitness _ _ _ _

/-- Mutating and warming the offspring keeps their fitness at
`Infinity`. -/
theorem mutateOffspringLoop_top (env : GCEnv) :
    ∀ (cs acc : List Gene) (pos : ℕ), (∀ g ∈ cs, g.fitness = ⊤) →
      (∀ g ∈ acc, g.fitness = ⊤) →
      ∀ g ∈ (mutateOffspringLoop env cs acc pos).1, g.fitness = ⊤ := by
  intro cs
  induction cs with
  | nil => intro acc pos _ hacc; exact hacc
  | cons c rest ih =>
    intro acc pos hcs hacc
    unfold mutateOffspringLoop
    refine ih _ _ (fun g hg => hcs g (List.mem_cons_of_mem c hg)) ?_
    intro g hg
    rcases List.mem_append.mp hg with h | h
    · exact hacc g h
    · rcases List.mem_singleton.mp h with h2
      rw [h2, warmUpTicks_fitness, mutate_fitness]
      exact hcs c (List.mem_cons_self c rest)

/-- Every gene appended by the offspring phase has fitness `Infinity`. -/
theorem offspringPhase_top (env : GCEnv) (sorted : List Gene) (pos : ℕ) :
    ∀ g ∈ (offspringPhase env sorted pos).1, g.fitness = ⊤ := by
  unfold offspringPhase
  refine mutateOffspringLoop_top env _ _ _ ?_ (fun g hg => absurd hg (List.not_mem_nil g))
  exact crossoverLoop_top env sorted _ _ _ (fun g hg => absurd hg (List.not_mem_nil g))

/-- An all-`Infinity` list is trivially sorted. -/
theorem pairwise_of_all_top {l : List Gene} (h : ∀ g ∈ l, g.fitness = ⊤) :
    l.Pairwise (fun a b => a.fitness ≤ b.fitness) := by
  induction l with
  | nil => exact List.Pairwise.nil
  | cons a t ih =>
    refine List.Pairwise.cons ?_ (ih (fun g hg => h g (List.mem_cons_of_mem a hg)))
    intro b hb
    rw [h b (List.mem_cons_of_mem a hb)]
    exact le_top

/-- The combined population at cull time — the sorted evaluated genes
followed by the `Infinity`-fitness offspring — is ascending by fitness
end to end. -/
theorem combined_pairwise (env : GCEnv) (st : GCState) (pos : ℕ) :
    (evalSortPhase env st.genes ++
        (offspringPhase env (evalSortPhase env st.genes) pos).1).Pairwise
      (fun a b => a.fitness ≤ b.fitness) := by
  refine List.pairwise_append.mpr ⟨?_, ?_, ?_⟩
  · exact (evalSortPhase_pairwise env st.genes).imp (fun h => geneRel_imp_le h)
  · exact pairwise_of_all_top (offspringPhase_top env _ pos)
  · intro a _ b hb
    rw [offspringPhase_top env _ pos b hb]
    exact le_top

/-- C3.  Within `iterate`, after the offspring are appended to the
sorted evaluated population, the culling step keeps exactly the first
`length − ⌊length · selectionPressure⌋` genes — i.e. removes exactly the
`⌊length · selectionPressure⌋` tail genes — and every surviving gene's
fitness is no worse (no larger) than every removed gene's fitness: the
evaluated part is sorted ascending and every appended offspring still
carries fitness `Infinity`, so the removed tail is a set of worst
genes. -/
theorem C3_cull_removes_worst (env : GCEnv) (st : GCState) (pos : ℕ)
    (_h0 : 0 ≤ env.config.selectionPressure) (h1 : env.config.selectionPressure ≤ 1) :
    cullStep env.config.selectionPressure
        (evalSortPhase env st.genes ++ (offspringPhase env (evalSortPhase env st.genes) pos).1) =
      (evalSortPhase env st.genes ++ (offspringPhase env (evalSortPhase env st.genes) pos).1).take
        ((evalSortPhase env st.genes ++ (offspringPhase env (evalSortPhase env st.genes) pos).1).length -
          jsFloorNat (((evalSortPhase env st.genes ++ (offspringPhase env (evalSortPhase env st.genes) pos).1).length : ℚ) *
            env.config.selectionPressure)) ∧
    ((evalSortPhase env st.genes ++ (offspringPhase env (evalSortPhase env st.genes) pos).1).drop
        ((evalSortPhase env st.genes ++ (offspringPhase env (evalSortPhase env st.genes) pos).1).length -
          jsFloorNat (((evalSortPhase env st.genes ++ (offspringPhase env (evalSortPhase env st.genes) pos).1).length : ℚ) *
            env.config.selectionPressure))).length =
      jsFloorNat (((evalSortPhase env st.genes ++ (offspringPhase env (evalSortPhase env st.genes) pos).1).length : ℚ) *
        env.config.selectionPressure) ∧
    ∀ s ∈ cullStep env.config.selectionPressure
        (evalSortPhase env st.genes ++ (offspringPhase env (evalSortPhase env st.genes) pos).1),
      ∀ r ∈ (evalSortPhase env st.genes ++ (offspringPhase env (evalSortPhase env st.genes) pos).1).drop
        ((evalSortPhase env st.genes ++ (offspringPhase env (evalSortPhase env st.genes) pos).1).length -
          jsFloorNat (((evalSortPhase env st.genes ++ (offspringPhase env (evalSortPhase env st.genes) pos).1).length : ℚ) *
            env.config.selectionPressure)),
        s.fitness ≤ r.fitness := by
  set combined := evalSortPhase env st.genes ++
    (offspringPhase env (evalSortPhase env st.genes) pos).1 with hcomb
  set L := combined.length with hL
  set k := jsFloorNat ((L : ℚ) * env.config.selectionPressure) with hk
  have hkL : k ≤ L := by
    have hq : (L : ℚ) * env.config.selectionPressure ≤ (L : ℚ) :=
      mul_le_of_le_one_right (by positivity) h1
    have hfloor : ⌊(L : ℚ) * env.config.selectionPressure⌋ ≤ (L : ℤ) := by
      calc ⌊(L : ℚ) * env.config.selectionPressure⌋ ≤ ⌊(L : ℚ)⌋ := Int.floor_le_floor hq
        _ = (L : ℤ) := Int.floor_natCast L
    rw [hk]
    unfold jsFloorNat
    omega
  have hcull : cullStep env.config.selectionPressure combined = combined.take (L - k) := by
    unfold cullStep jsSliceTo
    rw [← hL, ← hk]
    rw [if_pos (by omega)]
    congr 1
    omega
  refine ⟨hcull, ?_, ?_⟩
  · rw [List.length_drop]
    omega
  · intro s hs r hr
    have hpw := combined_pairwise env st pos
    rw [← hcomb] at hpw
    rw [← List.take_append_drop (L - k) combined] at hpw
    have := List.pairwise_append.mp hpw
    rw [hcull] at hs
    exact this.2.2 s hs r hr


/-- Witness for the cull property at a concrete collection. -/
theorem C3_cull_removes_worst_witness :
    (0 : ℚ) ≤ envC2.config.selectionPressure ∧ envC2.config.selectionPressure ≤ 1 ∧
    (cullStep envC2.config.selectionPressure
        (evalSortPhase envC2 (GeneCollection.init envC2 baseC2 0).1.genes ++ (offspringPhase envC2 (evalSortPhase envC2 (GeneCollection.init envC2 baseC2 0).1.genes) 0).1) =
      (evalSortPhase envC2 (GeneCollection.init envC2 baseC2 0).1.genes ++ (offspringPhase envC2 (evalSortPhase envC2 (GeneCollection.init envC2 baseC2 0).1.genes) 0).1).take
        ((evalSortPhase envC2 (GeneCollection.init envC2 baseC2 0).1.genes ++ (offspringPhase envC2 (evalSortPhase envC2 (GeneCollection.init envC2 baseC2 0).1.genes) 0).1).length -
          jsFloorNat (((evalSortPhase envC2 (GeneCollection.init envC2 baseC2 0).1.genes ++ (offspringPhase envC2 (evalSortPhase envC2 (GeneCollection.init envC2 baseC2 0).1.genes) 0).1).length : ℚ) *
            envC2.config.selectionPressure)) ∧
    ((evalSortPhase envC2 (GeneCollection.init envC2 baseC2 0).1.genes ++ (offspringPhase envC2 (evalSortPhase envC2 (GeneCollection.init envC2 baseC2 0).1.genes) 0).1).drop
        ((evalSortPhase envC2 (GeneCollection.init envC2 baseC2 0).1.genes ++ (offspringPhase envC2 (evalSortPhase envC2 (GeneCollection.init envC2 baseC2 0).1.genes) 0).1).length -
          jsFloorNat (((evalSortPhase envC2 (GeneCollection.init envC2 baseC2 0).1.genes ++ (offspringPhase envC2 (evalSortPhase envC2 (GeneCollection.init envC2 baseC2 0).1.genes) 0).1).length : ℚ) *
            envC2.config.selectionPressure))).length =
      jsFloorNat (((evalSortPhase envC2 (GeneCollection.init envC2 baseC2 0).1.genes ++ (offspringPhase envC2 (evalSortPhase envC2 (GeneCollection.init envC2 baseC2 0).1.genes) 0).1).length : ℚ) *
        envC2.config.selectionPressure) ∧
    ∀ s ∈ cullStep envC2.config.selectionPressure
        (evalSortPhase envC2 (GeneCollection.init envC2 baseC2 0).1.genes ++ (offspringPhase envC2 (evalSortPhase envC2 (GeneCollection.init envC2 baseC2 0).1.genes) 0).1),
      ∀ r ∈ (evalSortPhase envC2 (GeneCollection.init envC2 baseC2 0).1.genes ++ (offspringPhase envC2 (evalSortPhase envC2 (GeneCollection.init envC2 baseC2 0).1.genes) 0).1).drop
        ((evalSortPhase envC2 (GeneCollection.init envC2 baseC2 0).1.genes ++ (offspringPhase envC2 (evalSortPhase envC2 (GeneCollection.init envC2 baseC2 0).1.genes) 0).1).length -
          jsFloorNat (((evalSortPhase envC2 (GeneCollection.init envC2 baseC2 0).1.genes ++ (offspringPhase envC2 (evalSortPhase envC2 (GeneCollection.init envC2 baseC2 0).1.genes) 0).1).length : ℚ) *
            envC2.config.selectionPressure)),
        s.fitness ≤ r.fitness) :=
  ⟨by norm_num [envC2, cfgC2], by norm_num [envC2, cfgC2],
    C3_cull_removes_worst envC2 (GeneCollection.init envC2 baseC2 0).1 0
      (by norm_num [envC2, cfgC2]) (by norm_num [envC2, cfgC2])⟩

/-- The sorted phase preserves the population size. -/
theorem evalSortPhase_length (env : GCEnv) (genes : List Gene) :
    (evalSortPhase env genes).length = genes.length := by
  unfold evalSortPhase sortGenes
  rw [(List.perm_insertionSort geneRel _).length_eq]
  simp

/-- `cullStep` is a prefix `take` whenever the cull count does not
exceed the population. -/
theorem cullStep_eq_take (sp : ℚ) (l : List Gene)
    (hk : jsFloorNat ((l.length : ℚ) * sp) ≤ l.length) :
    cullStep sp l = l.take (l.length - jsFloorNat ((l.length : ℚ) * sp)) := by
  unfold cullStep jsSliceTo
  rw [if_pos (by omega)]
  congr 1
  omega

/-- The refill loop only appends. -/
theorem refillLoop_shape (env : GCEnv) :
    ∀ (n : ℕ) (genes : List Gene) (pos : ℕ),
      ∃ ext, (refillLoop env n genes pos).1 = genes ++ ext := by
  intro n
  induction n with
  | zero => intro genes pos; exact ⟨[], by simp [refillLoop]⟩
  | succ k ih =>
    intro genes pos
    unfold refillLoop
    dsimp only
    obtain ⟨ext, hext⟩ := ih (genes ++ [_]) _
    rw [hext, List.append_assoc]
    exact ⟨_, rfl⟩

/-- Disabled fresh blood leaves the population untouched. -/
theorem freshBloodPhase_skip (env : GCEnv) (baseRooms : List RoomES) (gen : ℕ)
    (genes : List Gene) (pos : ℕ) (hfb : env.config.useFreshBlood = false) :
    freshBloodPhase env baseRooms gen genes pos = (genes, pos) := by
  unfold freshBloodPhase
  rw [hfb]
  rfl

/-- The head of the sorted population is a fitness lower bound for every
member of the population. -/
theorem sortGenes_headD_le (l : List Gene) (g : Gene) (hg : g ∈ l) :
    ((sortGenes l).headD dfltGene).fitness ≤ g.fitness := by
  have hg2 : g ∈ sortGenes l := (sortGenes_perm l).mem_iff.mpr hg
  have hpw := sortGenes_pairwise l
  cases hsort : sortGenes l with
  | nil => rw [hsort] at hg2; exact absurd hg2 (List.not_mem_nil g)
  | cons b t =>
    rw [hsort] at hg2 hpw
    rw [List.headD_cons]
    rcases List.mem_cons.mp hg2 with h | h
    · rw [h]
    · exact geneRel_imp_le ((List.pairwise_cons.mp hpw).1 g h)

/-- C2 (amended): the selection machinery of a generation — offspring
creation, culling and refilling — never worsens the best fitness: after
a full `iterate` (fresh blood disabled), the best fitness of the
population is at most the fitness of every gene evaluated in that
generation's evaluation step.  The best fitness can still increase from
one generation to the next (see the counterexample): the increase comes
from the physics tick and re-evaluation applied to every gene — the
incumbent best included — before selection, not from selection. -/
theorem C2_selection_preserves_best (env : GCEnv) (st : GCState) (pos : ℕ)
    (hne : st.genes ≠ []) (h1 : env.config.selectionPressure < 1)
    (hfb : env.config.useFreshBlood = false) :
    ∀ g ∈ evalSortPhase env st.genes,
      (GeneCollection.getBest (GeneCollection.iterate env st pos).1).fitness ≤
        g.fitness := by
  intro g hg
  obtain ⟨a, t, hat⟩ :=
    List.exists_cons_of_ne_nil (l := evalSortPhase env st.genes)
      (by rw [← List.length_pos_iff_ne_nil, evalSortPhase_length]
          exact List.length_pos_iff_ne_nil.mpr hne)
  set sorted := evalSortPhase env st.genes with hsorted
  set offs := offspringPhase env sorted pos with hoffs
  set combined := sorted ++ offs.1 with hcomb
  set L := combined.length with hL
  set k := jsFloorNat ((L : ℚ) * env.config.selectionPressure) with hk
  have hL1 : 1 ≤ L := by
    rw [hL, hcomb, List.length_append, hat]
    simp
    omega
  have hkL : k < L := by
    have hq : (L : ℚ) * env.config.selectionPressure < (L : ℚ) := by
      calc (L : ℚ) * env.config.selectionPressure < (L : ℚ) * 1 := by
            refine mul_lt_mul_of_pos_left h1 ?_
            exact_mod_cast hL1
        _ = L := mul_one (L : ℚ)
    have hfloor : ⌊(L : ℚ) * env.config.selectionPressure⌋ < (L : ℤ) :=
      Int.floor_lt.mpr (by exact_mod_cast hq)
    rw [hk]
    unfold jsFloorNat
    omega
  have hcull : cullStep env.config.selectionPressure combined = combined.take (L - k) :=
    cullStep_eq_take env.config.selectionPressure combined (by rw [← hL, ← hk]; omega)
  have hmem_surv : a ∈ cullStep env.config.selectionPressure combined := by
    rw [hcull]
    have hcc : combined = a :: (t ++ offs.1) := by rw [hcomb, hat]; rfl
    rw [hcc, List.take_cons (by omega)]
    exact List.mem_cons_self a _
  have hmem_refill :
      a ∈ (refillPhase env (cullStep env.config.selectionPressure combined) offs.2).1 := by
    unfold refillPhase
    obtain ⟨ext, hext⟩ := refillLoop_shape env _ (cullStep env.config.selectionPressure combined)
      offs.2
    rw [hext]
    exact List.mem_append_left ext hmem_surv
  have hgenes : (GeneCollection.iterate env st pos).1.genes =
      (refillPhase env (cullStep env.config.selectionPressure combined) offs.2).1 := by
    show (freshBloodPhase env st.baseRooms (st.currentGeneration + 1)
        (refillPhase env (cullStep env.config.selectionPressure combined) offs.2).1
        (refillPhase env (cullStep env.config.selectionPressure combined) offs.2).2).1 =
      (refillPhase env (cullStep env.config.selectionPressure combined) offs.2).1
    rw [freshBloodPhase_skip env _ _ _ _ hfb]
  have hbest : (GeneCollection.getBest (GeneCollection.iterate env st pos).1).fitness ≤
      a.fitness := by
    unfold GeneCollection.getBest
    rw [hgenes]
    exact sortGenes_headD_le _ a hmem_refill
  have ha_le : a.fitness ≤ g.fitness := by
    have hpw := evalSortPhase_pairwise env st.genes
    rw [← hsorted, hat] at hpw
    rw [hat] at hg
    rcases List.mem_cons.mp hg with h | h
    · rw [h]
    · exact geneRel_imp_le ((List.pairwise_cons.mp hpw).1 g h)
  exact le_trans hbest ha_le

/-- Witness for the amended selection statement at a concrete
collection and a concrete evaluated gene. -/
theorem C2_selection_preserves_best_witness :
    (GeneCollection.init envC2 baseC2 0).1.genes ≠ [] ∧
    envC2.config.selectionPressure < 1 ∧ envC2.config.useFreshBlood = false ∧
    ∀ g ∈ evalSortPhase envC2 (GeneCollection.init envC2 baseC2 0).1.genes,
      (GeneCollection.getBest
          (GeneCollection.iterate envC2 (GeneCollection.init envC2 baseC2 0).1 0).1).fitness ≤
        g.fitness :=
  ⟨by decide, by norm_num [envC2, cfgC2], by decide,
    C2_selection_preserves_best envC2 (GeneCollection.init envC2 baseC2 0).1 0
      (by decide) (by norm_num [envC2, cfgC2]) (by decide)⟩

/-- Membership in a mapped index range. -/
theorem mem_map_range_iff {β : Type} (f : ℕ → β) (n : ℕ) (b : β) :
    b ∈ (List.range n).map f ↔ ∃ k, k < n ∧ f k = b := by
  simp only [List.mem_map, List.mem_range]

/-- The `ONE_SIDE` footprint cells. -/
theorem getRoomFootprint_one (x y : ℤ) (w h : ℕ) :
    (getRoomFootprint x y w h 1).corridorCells =
      (List.range w).map (fun (dx : ℕ) => (x + (dx : ℤ), y + (h : ℤ))) := by
  simp [getRoomFootprint]

/-- The `TWO_SIDES` footprint cells. -/
theorem getRoomFootprint_two (x y : ℤ) (w h : ℕ) :
    (getRoomFootprint x y w h 2).corridorCells =
      (List.range (w + 1)).map (fun (dx : ℕ) => (x + (dx : ℤ), y + (h : ℤ))) ++
        (List.range h).map (fun (dy : ℕ) => (x + (w : ℤ), y + (dy : ℤ))) := by
  simp [getRoomFootprint]

/-- The `ALL_SIDES` footprint cells. -/
theorem getRoomFootprint_three (x y : ℤ) (w h : ℕ) :
    (getRoomFootprint x y w h 3).corridorCells =
      (List.range (w + 2)).map (fun (k : ℕ) => (x - 1 + (k : ℤ), y - 1)) ++
        ((List.range (w + 2)).map (fun (k : ℕ) => (x - 1 + (k : ℤ), y + (h : ℤ))) ++
          ((List.range h).map (fun (dy : ℕ) => (x - 1, y + (dy : ℤ))) ++
            (List.range h).map (fun (dy : ℕ) => (x + (w : ℤ), y + (dy : ℤ))))) := by
  simp [getRoomFootprint]

/-- C9.  For every room position and size (width and height at least
one cell), the corridor footprint the solver computes equals the spec's
set definition for each rule: `NONE` has no cells, `ONE_SIDE` the row of
`w` cells below the room, `TWO_SIDES` the bottom row of `w+1` cells plus
the right column of `h` cells, and `ALL_SIDES` the full one-cell-thick
halo around the room rectangle, corners included. -/
theorem C9_footprint_matches_spec (x y : ℤ) (w h : ℕ) (hw : 1 ≤ w) (hh : 1 ≤ h) :
    (getRoomFootprint x y w h 0).corridorCells = [] ∧
    (∀ p, p ∈ (getRoomFootprint x y w h 1).corridorCells ↔ specFootprintOneSide x y w h p) ∧
    (∀ p, p ∈ (getRoomFootprint x y w h 2).corridorCells ↔ specFootprintTwoSides x y w h p) ∧
    (∀ p, p ∈ (getRoomFootprint x y w h 3).corridorCells ↔ specFootprintAllSides x y w h p) := by
  refine ⟨by simp [getRoomFootprint], ?_, ?_, ?_⟩
  · rintro ⟨p1, p2⟩
    rw [getRoomFootprint_one, mem_map_range_iff]
    unfold specFootprintOneSide
    simp only [Prod.mk.injEq]
    constructor
    · rintro ⟨k, hk, hx, hy⟩
      refine ⟨(k : ℤ), by omega, by omega, by omega, by omega⟩
    · rintro ⟨dx, h0, hlt, hx, hy⟩
      refine ⟨dx.toNat, by omega, by omega, by omega⟩
  · rintro ⟨p1, p2⟩
    rw [getRoomFootprint_two, List.mem_append, mem_map_range_iff, mem_map_range_iff]
    unfold specFootprintTwoSides
    simp only [Prod.mk.injEq]
    constructor
    · rintro (⟨k, hk, hx, hy⟩ | ⟨k, hk, hx, hy⟩)
      · exact Or.inl ⟨(k : ℤ), by omega, by omega, by omega, by omega⟩
      · exact Or.inr ⟨(k : ℤ), by omega, by omega, by omega, by omega⟩
    · rintro (⟨dx, h0, hle, hx, hy⟩ | ⟨dy, h0, hlt, hx, hy⟩)
      · exact Or.inl ⟨dx.toNat, by omega, by omega, by omega⟩
      · exact Or.inr ⟨dy.toNat, by omega, by omega, by omega⟩
  · rintro ⟨p1, p2⟩
    rw [getRoomFootprint_three, List.mem_append, List.mem_append, List.mem_append,
      mem_map_range_iff, mem_map_range_iff, mem_map_range_iff, mem_map_range_iff]
    unfold specFootprintAllSides
    simp only [Prod.mk.injEq]
    constructor
    · rintro (⟨k, hk, hx, hy⟩ | ⟨k, hk, hx, hy⟩ | ⟨k, hk, hx, hy⟩ | ⟨k, hk, hx, hy⟩) <;>
        exact ⟨⟨by omega, by omega, by omega, by omega⟩, by omega⟩
    · rintro ⟨⟨hb1, hb2, hb3, hb4⟩, hcore⟩
      by_cases htop : p2 = y - 1
      · exact Or.inl ⟨(p1 - (x - 1)).toNat, by omega, by omega, by omega⟩
      · by_cases hbot : p2 = y + (h : ℤ)
        · exact Or.inr (Or.inl ⟨(p1 - (x - 1)).toNat, by omega, by omega, by omega⟩)
        · by_cases hleft : p1 = x - 1
          · exact Or.inr (Or.inr (Or.inl ⟨(p2 - y).toNat, by omega, by omega, by omega⟩))
          · exact Or.inr (Or.inr (Or.inr ⟨(p2 - y).toNat, by omega, by omega, by omega⟩))

/-- Witness for the footprint equality at a concrete 2 × 1 room. -/
theorem C9_footprint_matches_spec_witness :
    1 ≤ 2 ∧ 1 ≤ 1 ∧
    ((getRoomFootprint 4 7 2 1 0).corridorCells = [] ∧
      (∀ p, p ∈ (getRoomFootprint 4 7 2 1 1).corridorCells ↔ specFootprintOneSide 4 7 2 1 p) ∧
      (∀ p, p ∈ (getRoomFootprint 4 7 2 1 2).corridorCells ↔ specFootprintTwoSides 4 7 2 1 p) ∧
      (∀ p, p ∈ (getRoomFootprint 4 7 2 1 3).corridorCells ↔ specFootprintAllSides 4 7 2 1 p)) :=
  ⟨by norm_num, by norm_num, C9_footprint_matches_spec 4 7 2 1 (by norm_num) (by norm_num)⟩

/-- Reads below the old length see through an append. -/
theorem getD_append_left {α : Type} (l1 l2 : List α) (i : ℕ) (d : α)
    (h : i < l1.length) : (l1 ++ l2).getD i d = l1.getD i d := by
  simp [List.getD_eq_getElem?_getD, List.getElem?_append, h]

/-- Folded writes leave untouched references unchanged. -/
theorem foldSet_getD (r : ℕ) (d : RoomES) :
    ∀ (ps : List (ℕ × RoomES)) (σ : Store), (∀ p ∈ ps, p.1 ≠ r) →
      (ps.foldl (fun σ rv => σ.set rv.1 rv.2) σ).getD r d = σ.getD r d := by
  intro ps
  induction ps with
  | nil => intro σ _; rfl
  | cons p rest ih =>
    intro σ hps
    have h1 : p.1 ≠ r := hps p (List.mem_cons_self p rest)
    calc (List.foldl (fun σ rv => σ.set rv.1 rv.2) (σ.set p.1 p.2) rest).getD r d
        = (σ.set p.1 p.2).getD r d :=
          ih _ (fun q hq => hps q (List.mem_cons_of_mem p hq))
      _ = σ.getD r d := getD_set_ne σ p.1 r p.2 d h1

/-- `storeWrite` through references not containing `r` preserves the
room at `r`. -/
theorem storeWrite_getD_not_mem (σ : Store) (refs : List ℕ) (vals : List RoomES)
    (r : ℕ) (d : RoomES) (hr : r ∉ refs) :
    (storeWrite σ refs vals).getD r d = σ.getD r d := by
  unfold storeWrite
  refine foldSet_getD r d (refs.zip vals) σ ?_
  intro p hp he
  exact hr (he ▸ (List.of_mem_zip hp).1)

/-- C10.  In the heap model, `A.crossover(B)` leaves both parents'
room objects untouched (it only reads them and allocates fresh child
objects), the child gene references none of the parents' room objects,
and a subsequent `mutate` of the child — which writes only through the
child's own references — leaves every room object of `A` and of `B`
exactly as it was before the crossover.  The parents' gene records
(fitness fields included) are never assigned by the source's
`crossover`, so only the store content is at issue. -/
theorem C10_crossover_no_aliasing (host : Host) (σ : Store) (gA gB : GeneRef)
    (pos : ℕ) (config : SpringConfig) (adjs : List Adjacency) (gtr : Option ℚ)
    (mRate mStrength : ℚ) (aRate : Option ℚ) (pos2 : ℕ)
    (hA : ∀ r ∈ gA.roomRefs, r < σ.length) (hB : ∀ r ∈ gB.roomRefs, r < σ.length)
    (_hlen : gA.roomRefs.length = gB.roomRefs.length) :
    (∀ r ∈ gA.roomRefs ++ gB.roomRefs,
      (crossoverStore host σ gA gB pos).1.getD r dfltRoom = σ.getD r dfltRoom) ∧
    (∀ rc ∈ (crossoverStore host σ gA gB pos).2.1.roomRefs,
      ∀ r ∈ gA.roomRefs ++ gB.roomRefs, rc ≠ r) ∧
    (∀ r ∈ gA.roomRefs ++ gB.roomRefs,
      (mutateStore host config adjs gtr mRate mStrength aRate
          (crossoverStore host σ gA gB pos).1 (crossoverStore host σ gA gB pos).2.1
          pos2).1.getD r dfltRoom = σ.getD r dfltRoom) := by
  have hlt : ∀ r ∈ gA.roomRefs ++ gB.roomRefs, r < σ.length := by
    intro r hr
    rcases List.mem_append.mp hr with h | h
    · exact hA r h
    · exact hB r h
  have hstore : (crossoverStore host σ gA gB pos).1 =
      σ ++ (crossoverRoomsLoop host (gA.roomRefs.map (fun r => σ.getD r dfltRoom))
        (gB.roomRefs.map (fun r => σ.getD r dfltRoom))
        (List.range (gA.roomRefs.map (fun r => σ.getD r dfltRoom)).length) [] pos).1 := rfl
  have hrefs : (crossoverStore host σ gA gB pos).2.1.roomRefs =
      (List.range (crossoverRoomsLoop host (gA.roomRefs.map (fun r => σ.getD r dfltRoom))
        (gB.roomRefs.map (fun r => σ.getD r dfltRoom))
        (List.range (gA.roomRefs.map (fun r => σ.getD r dfltRoom)).length) [] pos).1.length).map
        (fun i => σ.length + i) := rfl
  have hchild_ge : ∀ rc ∈ (crossoverStore host σ gA gB pos).2.1.roomRefs, σ.length ≤ rc := by
    intro rc hrc
    rw [hrefs] at hrc
    obtain ⟨i, _, hi⟩ := (mem_map_range_iff _ _ rc).mp hrc
    omega
  have h1 : ∀ r ∈ gA.roomRefs ++ gB.roomRefs,
      (crossoverStore host σ gA gB pos).1.getD r dfltRoom = σ.getD r dfltRoom := by
    intro r hr
    rw [hstore]
    exact getD_append_left σ _ r dfltRoom (hlt r hr)
  refine ⟨h1, ?_, ?_⟩
  · intro rc hrc r hr
    have := hchild_ge rc hrc
    have := hlt r hr
    omega
  · intro r hr
    unfold mutateStore
    rw [storeWrite_getD_not_mem]
    · exact h1 r hr
    · intro hmem
      have := hchild_ge r hmem
      have := hlt r hr
      omega

/-- Witness for the aliasing theorem: one-room parents over a two-room
store. -/
theorem C10_crossover_no_aliasing_witness :
    (∀ r ∈ (⟨[0], ⊤, 0, 0⟩ : GeneRef).roomRefs, r < ([roomA5, roomB5] : Store).length) ∧
    (∀ r ∈ (⟨[1], ⊤, 0, 0⟩ : GeneRef).roomRefs, r < ([roomA5, roomB5] : Store).length) ∧
    ((∀ r ∈ (⟨[0], ⊤, 0, 0⟩ : GeneRef).roomRefs ++ (⟨[1], ⊤, 0, 0⟩ : GeneRef).roomRefs,
        (crossoverStore hostZero [roomA5, roomB5] ⟨[0], ⊤, 0, 0⟩ ⟨[1], ⊤, 0, 0⟩ 0).1.getD r
            dfltRoom =
          ([roomA5, roomB5] : Store).getD r dfltRoom) ∧
      (∀ rc ∈ (crossoverStore hostZero [roomA5, roomB5] ⟨[0], ⊤, 0, 0⟩ ⟨[1], ⊤, 0, 0⟩ 0).2.1.roomRefs,
        ∀ r ∈ (⟨[0], ⊤, 0, 0⟩ : GeneRef).roomRefs ++ (⟨[1], ⊤, 0, 0⟩ : GeneRef).roomRefs, rc ≠ r) ∧
      (∀ r ∈ (⟨[0], ⊤, 0, 0⟩ : GeneRef).roomRefs ++ (⟨[1], ⊤, 0, 0⟩ : GeneRef).roomRefs,
        (mutateStore hostZero cfgPlain [] none 0 0 none
            (crossoverStore hostZero [roomA5, roomB5] ⟨[0], ⊤, 0, 0⟩ ⟨[1], ⊤, 0, 0⟩ 0).1
            (crossoverStore hostZero [roomA5, roomB5] ⟨[0], ⊤, 0, 0⟩ ⟨[1], ⊤, 0, 0⟩ 0).2.1
            0).1.getD r dfltRoom =
          ([roomA5, roomB5] : Store).getD r dfltRoom)) :=
  ⟨by decide, by decide,
    C10_crossover_no_aliasing hostZero [roomA5, roomB5] ⟨[0], ⊤, 0, 0⟩ ⟨[1], ⊤, 0, 0⟩ 0
      cfgPlain [] none 0 0 none 0 (by decide) (by decide) (by decide)⟩

/-- Clearing a cell never increases the corridor count. -/
theorem corridorCount_set_le (g : Grid) (x y : ℤ) :
    corridorCount (g.set x y 0) ≤ corridorCount g := by
  unfold Grid.set corridorCount
  split
  · dsimp only
    by_cases hidx : y.toNat * g.width + x.toNat < g.cells.length
    · rw [List.countP_set _ _ _ _ hidx]
      have h0 : (decide ((0 : ℤ) = -1)) = false := by decide
      simp only [h0, Bool.false_eq_true, if_false]
      split <;> omega
    · rw [List.set_eq_of_length_le (by omega)]
  · exact le_refl _

/-- Clearing a corridor cell strictly decreases the corridor count. -/
theorem corridorCount_set_lt (g : Grid) (x y : ℤ) (h : g.get x y = -1) :
    corridorCount (g.set x y 0) < corridorCount g := by
  unfold Grid.get at h
  rw [Grid.set, corridorCount, corridorCount]
  split
  · rename_i hin
    rw [if_pos hin] at h
    dsimp only
    have hidx : y.toNat * g.width + x.toNat < g.cells.length := by
      by_contra hge
      rw [List.getD_eq_getElem?_getD, List.getElem?_eq_none (by omega)] at h
      simp at h
    have hval : g.cells[y.toNat * g.width + x.toNat] = -1 := by
      rw [List.getD_eq_getElem?_getD, List.getElem?_eq_getElem hidx] at h
      simpa using h
    rw [List.countP_set _ _ _ _ hidx]
    have hpos : 0 < g.cells.countP (fun v => decide (v = -1)) := by
      refine List.countP_pos_iff.mpr ⟨g.cells[y.toNat * g.width + x.toNat], List.getElem_mem hidx, ?_⟩
      simp [hval]
    have h0 : (decide ((0 : ℤ) = -1)) = false := by decide
    simp only [h0, hval, Bool.false_eq_true, if_false, decide_eq_true_eq]
    rw [if_pos trivial]
    omega
  · rename_i hin
    rw [if_neg hin] at h
    simp at h

/-- The pass fold never increases the corridor count, and a reported
change means a strict decrease. -/
theorem pruneFold_count : ∀ (l : List (ℤ × ℤ)) (g : Grid) (c : Bool),
    corridorCount (l.foldl pruneStep (g, c)).1 ≤ corridorCount g ∧
    ((l.foldl pruneStep (g, c)).2 = true →
      c = true ∨ corridorCount (l.foldl pruneStep (g, c)).1 < corridorCount g) := by
  intro l
  induction l with
  | nil => intro g c; exact ⟨le_refl _, fun h => Or.inl h⟩
  | cons p rest ih =>
    intro g c
    rw [List.foldl_cons]
    by_cases hcond : (g.get p.1 p.2 = -1 ∧ countNonEmptyNeighbors g p.1 p.2 ≤ 1)
    · have hstep : pruneStep (g, c) p = (g.set p.1 p.2 0, true) := by
        unfold pruneStep
        dsimp only
        rw [if_pos hcond]
      rw [hstep]
      obtain ⟨ih1, _⟩ := ih (g.set p.1 p.2 0) true
      have hlt := corridorCount_set_lt g p.1 p.2 hcond.1
      exact ⟨le_trans ih1 (le_of_lt hlt), fun _ => Or.inr (lt_of_le_of_lt ih1 hlt)⟩
    · have hstep : pruneStep (g, c) p = (g, c) := by
        unfold pruneStep
        dsimp only
        rw [if_neg hcond]
      rw [hstep]
      exact ih g c

/-- Once the change flag is set it stays set. -/
theorem pruneFold_flag : ∀ (l : List (ℤ × ℤ)) (g : Grid),
    (l.foldl pruneStep (g, true)).2 = true := by
  intro l
  induction l with
  | nil => intro g; rfl
  | cons p rest ih =>
    intro g
    rw [List.foldl_cons]
    by_cases hcond : (g.get p.1 p.2 = -1 ∧ countNonEmptyNeighbors g p.1 p.2 ≤ 1)
    · have hstep : pruneStep (g, true) p = (g.set p.1 p.2 0, true) := by
        unfold pruneStep; dsimp only; rw [if_pos hcond]
      rw [hstep]; exact ih _
    · have hstep : pruneStep (g, true) p = (g, true) := by
        unfold pruneStep; dsimp only; rw [if_neg hcond]
      rw [hstep]; exact ih g

/-- A pass that reports no change left the grid alone, and no visited
cell satisfied the dead-end condition. -/
theorem pruneFold_nochange : ∀ (l : List (ℤ × ℤ)) (g : Grid),
    (l.foldl pruneStep (g, false)).2 = false →
    (l.foldl pruneStep (g, false)).1 = g ∧
    ∀ p ∈ l, ¬(g.get p.1 p.2 = -1 ∧ countNonEmptyNeighbors g p.1 p.2 ≤ 1) := by
  intro l
  induction l with
  | nil => intro g _; exact ⟨rfl, by simp⟩
  | cons p rest ih =>
    intro g hflag
    rw [List.foldl_cons] at hflag ⊢
    by_cases hcond : (g.get p.1 p.2 = -1 ∧ countNonEmptyNeighbors g p.1 p.2 ≤ 1)
    · have hstep : pruneStep (g, false) p = (g.set p.1 p.2 0, true) := by
        unfold pruneStep; dsimp only; rw [if_pos hcond]
      rw [hstep, pruneFold_flag rest _] at hflag
      exact absurd hflag (by simp)
    · have hstep : pruneStep (g, false) p = (g, false) := by
        unfold pruneStep; dsimp only; rw [if_neg hcond]
      rw [hstep] at hflag ⊢
      obtain ⟨h1, h2⟩ := ih g hflag
      refine ⟨h1, ?_⟩
      intro q hq
      rcases List.mem_cons.mp hq with h | h
      · rw [h]; exact hcond
      · exact h2 q h

/-- The pruning frame relation: dimensions preserved, and every cell is
either untouched or was a corridor cell now cleared. -/
def PruneFrame (g g2 : Grid) : Prop :=
  g2.width = g.width ∧ g2.height = g.height ∧
  ∀ x y : ℤ, g2.get x y = g.get x y ∨ (g.get x y = -1 ∧ g2.get x y = 0)

/-- The frame relation is reflexive. -/
theorem pruneFrame_refl (g : Grid) : PruneFrame g g :=
  ⟨rfl, rfl, fun _ _ => Or.inl rfl⟩

/-- The frame relation composes. -/
theorem pruneFrame_trans {g1 g2 g3 : Grid} (h1 : PruneFrame g1 g2)
    (h2 : PruneFrame g2 g3) : PruneFrame g1 g3 := by
  refine ⟨h2.1.trans h1.1, h2.2.1.trans h1.2.1, ?_⟩
  intro x y
  rcases h2.2.2 x y with ha | ha <;> rcases h1.2.2 x y with hb | hb
  · exact Or.inl (ha.trans hb)
  · exact Or.inr ⟨hb.1, ha.trans hb.2⟩
  · exact Or.inr ⟨hb ▸ ha.1, ha.2⟩
  · exact Or.inr ⟨hb.1, ha.2⟩

/-- Clearing a corridor cell respects the frame relation. -/
theorem pruneFrame_set_zero (g : Grid) (x y : ℤ) (h : g.get x y = -1) :
    PruneFrame g (g.set x y 0) := by
  have hdim : (g.set x y 0).width = g.width ∧ (g.set x y 0).height = g.height := by
    unfold Grid.set
    split <;> exact ⟨rfl, rfl⟩
  refine ⟨hdim.1, hdim.2, ?_⟩
  intro a b
  unfold Grid.get at h ⊢
  unfold Grid.set
  split
  · rename_i hin
    rw [if_pos hin] at h
    dsimp only
    by_cases hab : 0 ≤ a ∧ a < (g.width : ℤ) ∧ 0 ≤ b ∧ b < (g.height : ℤ)
    · rw [if_pos hab, if_pos hab]
      have hidx : y.toNat * g.width + x.toNat < g.cells.length := by
        by_contra hge
        rw [List.getD_eq_getElem?_getD, List.getElem?_eq_none (by omega)] at h
        simp at h
      by_cases he : y.toNat * g.width + x.toNat = b.toNat * g.width + a.toNat
      · refine Or.inr ⟨?_, ?_⟩
        · rw [← he]; exact h
        · rw [List.getD_eq_getElem?_getD, List.getElem?_set, if_pos he,
            if_pos hidx]
          rfl
      · refine Or.inl ?_
        rw [List.getD_eq_getElem?_getD, List.getElem?_set,
          if_neg he, ← List.getD_eq_getElem?_getD]
    · rw [if_neg hab, if_neg hab]
      exact Or.inl rfl
  · exact Or.inl rfl

/-- Every pass step respects the frame relation. -/
theorem pruneStep_frame (st : Grid × Bool) (p : ℤ × ℤ) :
    PruneFrame st.1 (pruneStep st p).1 := by
  unfold pruneStep
  split
  · rename_i hcond
    exact pruneFrame_set_zero st.1 p.1 p.2 hcond.1
  · exact pruneFrame_refl st.1

/-- The whole pass fold respects the frame relation. -/
theorem pruneFold_frame : ∀ (l : List (ℤ × ℤ)) (st : Grid × Bool),
    PruneFrame st.1 (l.foldl pruneStep st).1 := by
  intro l
  induction l with
  | nil => intro st; exact pruneFrame_refl st.1
  | cons p rest ih =>
    intro st
    rw [List.foldl_cons]
    exact pruneFrame_trans (pruneStep_frame st p) (ih (pruneStep st p))

/-- The full fuelled loop respects the frame relation. -/
theorem pruneLoopFuel_frame : ∀ (n : ℕ) (g : Grid), PruneFrame g (pruneLoopFuel n g) := by
  intro n
  induction n with
  | zero => intro g; exact pruneFrame_refl g
  | succ k ih =>
    intro g
    unfold pruneLoopFuel
    dsimp only
    split
    · exact pruneFrame_trans (pruneFold_frame _ (g, false)) (ih _)
    · exact pruneFold_frame _ (g, false)

/-- With fuel exceeding the corridor count, the loop reaches a pass
fixed point. -/
theorem pruneLoopFuel_fix : ∀ (n : ℕ) (g : Grid), corridorCount g < n →
    prunePass (pruneLoopFuel n g) = (pruneLoopFuel n g, false) := by
  intro n
  induction n with
  | zero => intro g h; omega
  | succ k ih =>
    intro g h
    unfold pruneLoopFuel
    dsimp only
    by_cases hch : (prunePass g).2 = true
    · rw [if_pos hch]
      refine ih (prunePass g).1 ?_
      unfold prunePass at hch ⊢
      have hc := pruneFold_count (gridCoords g.width g.height) g false
      rcases hc.2 hch with hfalse | hlt
      · exact absurd hfalse (by simp)
      · omega
    · rw [if_neg hch]
      have hflag : (prunePass g).2 = false := by simpa using hch
      have hnc := pruneFold_nochange (gridCoords g.width g.height) g hflag
      have hg : (prunePass g).1 = g := hnc.1
      rw [hg]
      rw [Prod.ext_iff]
      exact ⟨hg, hflag⟩

/-- In-range coordinates are visited by the row-major scan. -/
theorem mem_gridCoords (w h : ℕ) (x y : ℤ) (h1 : 0 ≤ x) (h2 : x < (w : ℤ))
    (h3 : 0 ≤ y) (h4 : y < (h : ℤ)) : (x, y) ∈ gridCoords w h := by
  unfold gridCoords
  rw [List.mem_flatMap]
  refine ⟨y.toNat, List.mem_range.mpr (by omega), ?_⟩
  rw [mem_map_range_iff]
  refine ⟨x.toNat, by omega, ?_⟩
  rw [Prod.ext_iff]
  constructor <;> simp <;> omega

/-- A pass fixed point has no prunable corridor cell. -/
theorem prunePass_fix_prop (g : Grid) (hfix : prunePass g = (g, false)) :
    ∀ x y : ℤ, ¬(g.get x y = -1 ∧ countNonEmptyNeighbors g x y ≤ 1) := by
  intro x y hcond
  have hin : 0 ≤ x ∧ x < (g.width : ℤ) ∧ 0 ≤ y ∧ y < (g.height : ℤ) := by
    have hv := hcond.1
    unfold Grid.get at hv
    by_cases hb : 0 ≤ x ∧ x < (g.width : ℤ) ∧ 0 ≤ y ∧ y < (g.height : ℤ)
    · exact hb
    · rw [if_neg hb] at hv
      simp at hv
  have hmem := mem_gridCoords g.width g.height x y hin.1 hin.2.1 hin.2.2.1 hin.2.2.2
  have hflag : (prunePass g).2 = false := by rw [hfix]
  have hnc := pruneFold_nochange (gridCoords g.width g.height) g hflag
  exact hnc.2 (x, y) hmem hcond

/-- C8.  `pruneDeadEnds` terminates (the embedding is a total function:
each changing pass strictly decreases the corridor count, so the
`corridorCount + 1` pass budget is never exhausted) and reaches a fixed
point: in the resulting grid no corridor cell has one or fewer
4-neighbors whose value is neither empty nor out-of-bounds; moreover the
only change the function makes is clearing corridor cells to empty —
every cell either keeps its value or went from `-1` to `0`. -/
theorem C8_prune_fixpoint (g : Grid) :
    (∀ x y : ℤ, ¬((pruneDeadEnds g).get x y = -1 ∧
        countNonEmptyNeighbors (pruneDeadEnds g) x y ≤ 1)) ∧
    (∀ x y : ℤ, (pruneDeadEnds g).get x y ≠ g.get x y →
        g.get x y = -1 ∧ (pruneDeadEnds g).get x y = 0) := by
  constructor
  · exact prunePass_fix_prop _ (pruneLoopFuel_fix (corridorCount g + 1) g (by omega))
  · intro x y hne
    rcases (pruneLoopFuel_frame (corridorCount g + 1) g).2.2 x y with h | h
    · exact absurd h hne
    · exact h

/-- The constructed Scenario C state is the 10 × 10 rasterized grid with
the seeded start cell, one room, no adjacencies, and empty placements. -/
theorem initC7_eq (M : ℕ) : initC7 M = ⟨gridC7init, [roomC7], [], cfgC7 M, [], none, ⊥⟩ := by
  unfold initC7 DiscreteSolver.init
  have hres : (cfgC7 M).gridResolution = 1 := rfl
  have hsp : (cfgC7 M).startPoint = some (5, 5) := rfl
  rw [hres, show calcGridDims 1 boundary10 = (10, 10) from by decide, hsp]
  rfl

/-- Scenario C placement search: the derived dimensions are exactly
10 × 10, the source's strict scan bound `y < height − h` makes the scan
range empty, and no candidate is ever produced — regardless of the
random stream and of the rest of the solver state. -/
theorem findBestC7 (host : Host) (hsq : host.sqrtFn 100 = 10) (rs : ℕ → ℚ) (M p : ℕ)
    (pr : List (String × PlacedRoom)) (bg : Option Grid) (bs : WithBot ℚ) :
    findBestPlacement host rs ⟨gridC7init, [roomC7], [], cfgC7 M, pr, bg, bs⟩ roomC7 p
      = (none, p + 1) := by
  unfold findBestPlacement
  have hres : (cfgC7 M).gridResolution = 1 := rfl
  have hh : gridC7init.height = 10 := rfl
  have hceil : jsCeilNat (10 : ℚ) = 10 := by decide
  simp only [roomC7, hres, hh, hsq, sub_self, mul_zero, add_zero, div_one, hceil]
  norm_num [hceil]

/-- With no placed rooms and no adjacencies the global score is zero. -/
theorem calcGlobalScoreC7 (host : Host) (g : Grid) (cfg : DiscreteConfig)
    (bg : Option Grid) (bs : WithBot ℚ) :
    calculateGlobalScore host ⟨g, [roomC7], [], cfg, [], bg, bs⟩ = 0 := by
  unfold calculateGlobalScore
  simp

/-- The Scenario C greedy phase places nothing and consumes one draw. -/
theorem solveGreedyC7 (host : Host) (hsq : host.sqrtFn 100 = 10) (rs : ℕ → ℚ) (M pos : ℕ) :
    solveGreedy host rs ⟨gridC7init, [roomC7], [], cfgC7 M, [], none, ⊥⟩ pos
      = (⟨gridC7init, [roomC7], [], cfgC7 M, [], none, ⊥⟩, pos + 1) := by
  unfold solveGreedy
  have hsort : sortRoomsByConnectivity ⟨gridC7init, [roomC7], [], cfgC7 M, [], none, ⊥⟩
      = [roomC7] := rfl
  rw [hsort, List.foldl_cons, List.foldl_nil]
  dsimp only
  rw [findBestC7 host hsq rs M pos [] none ⊥]

/-- One Scenario C evolutionary round: nothing is removed, the single
room still cannot be placed, the score does not improve, and the state
is restored unchanged with one more draw consumed. -/
theorem solveIterBodyC7 (host : Host) (hsq : host.sqrtFn 100 = 10) (rs : ℕ → ℚ) (M p : ℕ) :
    solveIterBody host rs
        ⟨gridC7init, [roomC7], [], cfgC7 M, [], some gridC7init, ((0 : ℚ) : WithBot ℚ)⟩ p
      = (⟨gridC7init, [roomC7], [], cfgC7 M, [], some gridC7init, ((0 : ℚ) : WithBot ℚ)⟩, p + 1) := by
  have hshuf : shuffleJS rs [] p = ([], p) := rfl
  have hceil0 : jsCeilNat (0 : ℚ) = 0 := by decide
  have hunp : [roomC7].filter
      (fun room => (placedLookup ([] : List (String × PlacedRoom)) room.id).isNone)
      = [roomC7] := rfl
  simp only [solveIterBody, List.map_nil, List.length_nil, Nat.cast_zero, zero_mul, hceil0, hshuf,
    List.take_nil, List.foldl_nil, List.foldl_cons, hunp,
    findBestC7 host hsq rs M, calcGlobalScoreC7, lt_self_iff_false, if_false]

/-- The Scenario C evolutionary loop is the identity on the state and
consumes one draw per round. -/
theorem solveLoopC7 (host : Host) (hsq : host.sqrtFn 100 = 10) (rs : ℕ → ℚ) (M : ℕ) :
    ∀ (n p : ℕ),
      solveLoop host rs n
          ⟨gridC7init, [roomC7], [], cfgC7 M, [], some gridC7init, ((0 : ℚ) : WithBot ℚ)⟩ p
        = (⟨gridC7init, [roomC7], [], cfgC7 M, [], some gridC7init, ((0 : ℚ) : WithBot ℚ)⟩,
          p + n) := by
  intro n
  induction n with
  | zero => intro p; rfl
  | succ k ih =>
    intro p
    simp only [solveLoop]
    rw [solveIterBodyC7 host hsq rs M p]
    dsimp only
    rw [ih (p + 1)]
    congr 1
    omega

set_option maxRecDepth 100000 in
/-- Pruning the Scenario C initial grid clears its lone seeded corridor
cell, leaving the all-empty 10 × 10 grid. -/
theorem prunedC7 : pruneDeadEnds gridC7init = Grid.mk0 10 10 := by decide

/-- The full Scenario C run: the solver returns the untouched (then
pruned) grid, an empty placement map, and a best score of zero, having
consumed one draw for the greedy phase and one per iteration. -/
theorem scenarioC_run (host : Host) (hsq : host.sqrtFn 100 = 10) (rs : ℕ → ℚ) (M pos : ℕ) :
    DiscreteSolver.solve host rs (initC7 M) pos =
      ((⟨Grid.mk0 10 10, [roomC7], [], cfgC7 M, [], some (Grid.mk0 10 10),
          ((0 : ℚ) : WithBot ℚ)⟩, Grid.mk0 10 10), pos + 1 + M) := by
  unfold DiscreteSolver.solve
  rw [initC7_eq M, solveGreedyC7 host hsq rs M pos]
  dsimp only
  rw [calcGlobalScoreC7]
  have hM : (cfgC7 M).maxIterations = M := rfl
  rw [hM, solveLoopC7 host hsq rs M M (pos + 1)]
  dsimp only
  rw [prunedC7]
  rfl

/-- C7.  Amended Scenario C: for the spec's single-room feasibility
input (10 × 10 boundary, one room of target area 100 and ratio interval
`[1, 1]`, corridor rule `NONE`, no adjacencies, start cell `(5, 5)`),
and for every random stream, every iteration budget and any host whose
square root is exact at 100, `solve` never places the room (the strict
scan bounds leave no candidate position for the 10 × 10 dimensions), the
returned grid after dead-end pruning has zero corridor cells (the seeded
start cell itself is pruned), and the corridor-network validation
returns `false` (the start cell is no longer a corridor), not `true` as
the spec expects. -/
theorem C7_scenario_c (host : Host) (rs : ℕ → ℚ) (M pos : ℕ)
    (hsq : host.sqrtFn 100 = 10) :
    (DiscreteSolver.solve host rs (initC7 M) pos).1.1.placedRooms = [] ∧
    corridorCount (DiscreteSolver.solve host rs (initC7 M) pos).1.2 = 0 ∧
    validateCorridorNetwork (DiscreteSolver.solve host rs (initC7 M) pos).1.1 = false := by
  rw [scenarioC_run host hsq rs M pos]
  dsimp only
  refine ⟨rfl, by decide, ?_⟩
  unfold validateCorridorNetwork
  rw [show (cfgC7 M).startPoint = some (5, 5) from rfl]
  dsimp only
  rw [if_pos (by decide)]

/-- Counterexample to the original Scenario C claim: with the exact
square root at 100, the default 500-iteration budget and the constantly
zero random stream, `solve` places no room at all and the
corridor-network validation returns `false`. -/
theorem C7_counterexample_scenario_c :
    (DiscreteSolver.solve hostSqrt (fun _ => 0) (initC7 500) 0).1.1.placedRooms = [] ∧
    validateCorridorNetwork (DiscreteSolver.solve hostSqrt (fun _ => 0) (initC7 500) 0).1.1
      = false := by
  rw [scenarioC_run hostSqrt (by decide) (fun _ => 0) 500 0]
  exact ⟨rfl, by decide⟩

/-- Witness for the amended Scenario C theorem at the table square root,
a nonzero constant stream, budget 3 and start position 1. -/
theorem C7_scenario_c_witness :
    hostSqrt.sqrtFn 100 = 10 ∧
    ((DiscreteSolver.solve hostSqrt (fun _ => 1/3) (initC7 3) 1).1.1.placedRooms = [] ∧
      corridorCount (DiscreteSolver.solve hostSqrt (fun _ => 1/3) (initC7 3) 1).1.2 = 0 ∧
      validateCorridorNetwork (DiscreteSolver.solve hostSqrt (fun _ => 1/3) (initC7 3) 1).1.1
        = false) :=
  ⟨by decide, C7_scenario_c hostSqrt (fun _ => 1/3) 3 1 (by decide)⟩

/-- Witness for the mutation clamping theorem: the mutated fixture gene
keeps its two rooms, and its first room's dimensions are at least 1. -/
theorem C5_mutate_clamps_dimensions_witness :
    (Gene.mutate hostZero cfgPlain [] none 0 0 none geneC5 0).1.rooms.length
        = geneC5.rooms.length ∧
    (1 ≤ ((Gene.mutate hostZero cfgPlain [] none 0 0 none geneC5 0).1.rooms.getD 0
        dfltRoom).width ∧
      1 ≤ ((Gene.mutate hostZero cfgPlain [] none 0 0 none geneC5 0).1.rooms.getD 0
        dfltRoom).height) :=
  ⟨(C5_mutate_clamps_dimensions hostZero cfgPlain [] none 0 0 none geneC5 0).1,
    (C5_mutate_clamps_dimensions hostZero cfgPlain [] none 0 0 none geneC5 0).2 _
      (by decide)⟩
